import Mathlib

/-!
Verification development for the page allocator of the `embedb` storage
engine (`src/io/bitmap.rs`, `src/io/index.rs`, `src/io/store.rs`).

Modelling conventions:
* Machine integers (`u16`, `u32`, `usize`) are modelled as `Nat`.  Where the
  Rust source performs a subtraction that can wrap, the model writes the
  wrap explicitly (`(a + 2^32 - b) % 2^32`); where the source casts to
  `u16`, the model writes `% 65536`.
* Byte buffers (`[u8; 4096]`, slices) are `List Nat`, one entry per byte.
* A Rust panic (slice index out of bounds, `unwrap` of `None`, …) is
  modelled by an outer `Option` layer: `none` means the Rust code panics.
  A Rust `Option` return value is the inner `Option`.
* An in-memory `BitmapPage`'s 4096-byte working buffer is only ever read
  through `bitmap()` (= `buffer[16..]`) by the operations modelled here,
  so the model stores the 4080-byte payload slice directly; the 16-byte
  header is re-serialised only by `persist`, which is not modelled.
-/

/-- `PAGE_SIZE` from `src/io/mod.rs`. -/
def PAGE_SIZE : Nat := 4096

/-- `BITMAP_HEADER_SIZE` from `src/io/bitmap.rs`. -/
def BITMAP_HEADER_SIZE : Nat := 16

/-- `BITMAP_PAGE_COUNT = ((PAGE_SIZE - BITMAP_HEADER_SIZE) * 8)` from `src/io/bitmap.rs`. -/
def BITMAP_PAGE_COUNT : Nat := (PAGE_SIZE - BITMAP_HEADER_SIZE) * 8

/-- `INDEX_HEADER_SIZE` from `src/io/index.rs`. -/
def INDEX_HEADER_SIZE : Nat := 16

/-- `INDEX_BITMAP_COUNT = ((PAGE_SIZE - INDEX_HEADER_SIZE) / 8)` from `src/io/index.rs`. -/
def INDEX_BITMAP_COUNT : Nat := (PAGE_SIZE - INDEX_HEADER_SIZE) / 8

/-- Little-endian `u16` read (`MemoryPage::get_u16` / slice access);
`none` models the Rust panic when the 2-byte range is out of bounds. -/
def getU16 (l : List Nat) (idx : Nat) : Option Nat :=
  if idx + 2 ≤ l.length then
    some (l.getD idx 0 + 256 * l.getD (idx + 1) 0)
  else none

/-- Little-endian `u32` read (`MemoryPage::get_u32` / `index.rs::get_u32`);
`none` models the Rust panic when the 4-byte range is out of bounds. -/
def getU32 (l : List Nat) (idx : Nat) : Option Nat :=
  if idx + 4 ≤ l.length then
    some (l.getD idx 0 + 256 * l.getD (idx + 1) 0 + 65536 * l.getD (idx + 2) 0 +
      16777216 * l.getD (idx + 3) 0)
  else none

/-- Little-endian `u32` write (`put_u32`); `none` models the Rust panic when
the 4-byte range is out of bounds. -/
def putU32 (l : List Nat) (idx : Nat) (value : Nat) : Option (List Nat) :=
  if idx + 4 ≤ l.length then
    some ((((l.set idx (value % 256)).set (idx + 1) (value / 256 % 256)).set
      (idx + 2) (value / 65536 % 256)).set (idx + 3) (value / 16777216 % 256))
  else none

/-- Little-endian `u16` write (`put_u16`); `none` on out-of-bounds. -/
def putU16 (l : List Nat) (idx : Nat) (value : Nat) : Option (List Nat) :=
  if idx + 2 ≤ l.length then
    some ((l.set idx (value % 256)).set (idx + 1) (value / 256 % 256))
  else none

/-- Inner bit loop of `<[u8] as Bitmap>::find_clear_filtered`, structurally
recursive on the number `rem` of bits still to inspect: scan bits
`bit..=bit+rem-1` of `byte` (the byte at index `byteIndex`) for a clear bit
whose candidate index passes `f`. -/
def scanBitsGo (byte byteIndex : Nat) (f : Nat → Bool) : Nat → Nat → Option Nat
  | _bit, 0 => none
  | bit, rem + 1 =>
    if byte &&& (1 <<< bit) = 0 then
      let candidate := (byteIndex <<< 3) + bit
      if f candidate then some candidate
      else scanBitsGo byte byteIndex f (bit + 1) rem
    else scanBitsGo byte byteIndex f (bit + 1) rem

/-- The source's `for bit in b0..=7` loop: scan bits `bit..=7`. -/
def scanBitsFrom (byte byteIndex : Nat) (f : Nat → Bool) (bit : Nat) : Option Nat :=
  scanBitsGo byte byteIndex f bit (8 - bit)

/-- Second loop of `find_clear_filtered`: scan whole bytes from absolute
byte index `byteIndex` on (bytes equal to `0xFF` are skipped). -/
def scanRest (f : Nat → Bool) : List Nat → Nat → Option Nat
  | [], _ => none
  | byte :: rest, byteIndex =>
    match (if byte ≠ 255 then scanBitsFrom byte byteIndex f 0 else none) with
    | some c => some c
    | none => scanRest f rest (byteIndex + 1)

/-- `<[u8] as Bitmap>::find_clear_filtered(offset, f)` from `src/io/bitmap.rs`:
first clear bit at index ≥ `offset` accepted by `f`, scanning the starting
byte partially and every later byte fully. -/
def findClearFiltered (l : List Nat) (offset : Nat) (f : Nat → Bool) : Option Nat :=
  let byteStart := offset >>> 3
  if byteStart ≥ l.length then none
  else
    match (if l.getD byteStart 0 ≠ 255 then
            scanBitsFrom (l.getD byteStart 0) byteStart f (offset &&& 7)
           else none) with
    | some c => some c
    | none => scanRest f (l.drop (byteStart + 1)) (byteStart + 1)

/-- `<[u8] as Bitmap>::set(index)`: returns whether the bit was clear and
the updated byte list; `none` models the Rust slice-index panic. -/
def bmSet (l : List Nat) (index : Nat) : Option (Bool × List Nat) :=
  let byteIndex := index >>> 3
  let bit := 1 <<< (index &&& 7)
  if _h : byteIndex < l.length then
    let byte := l.getD byteIndex 0
    let isClear := byte &&& bit = 0
    if isClear then some (true, l.set byteIndex (byte ||| bit))
    else some (false, l)
  else none

/-- `<[u8] as Bitmap>::clear(index)`: returns whether the bit was set and
the updated byte list (`!bit` on `u8` is `255 ^^^ bit`); `none` models the
Rust slice-index panic. -/
def bmClear (l : List Nat) (index : Nat) : Option (Bool × List Nat) :=
  let byteIndex := index >>> 3
  let bit := 1 <<< (index &&& 7)
  if _h : byteIndex < l.length then
    let byte := l.getD byteIndex 0
    let isSet := byte &&& bit = bit
    if isSet then some (true, l.set byteIndex (byte &&& (255 ^^^ bit)))
    else some (false, l)
  else none

/-- Whether bit `i` of the bitmap payload `l` is clear (the allocator's
"page free" state for index `i`). -/
def bitClearAt (l : List Nat) (i : Nat) : Prop :=
  (l.getD (i >>> 3) 0) &&& (1 <<< (i &&& 7)) = 0

instance (l : List Nat) (i : Nat) : Decidable (bitClearAt l i) := by
  unfold bitClearAt; infer_instance

/-- In-memory `BitmapPage` (`src/io/bitmap.rs`).  `payload` is the
4080-byte bitmap slice `buffer[16..]`. -/
structure BitmapPage where
  page_id : Nat
  first_managed_page_id : Nat
  last_managed_page_id : Nat
  current_first_free_page_idx : Nat
  first_free_page_idx : Nat
  free_page_count : Nat
  payload : List Nat
deriving Repr, DecidableEq

/-- `BitmapPage::page_for(index)`. -/
def BitmapPage.page_for (b : BitmapPage) (index : Nat) : Nat :=
  b.first_managed_page_id + index

/-- `BitmapPage::contains(page_id)` (range test, `src/io/bitmap/mod.rs`). -/
def BitmapPage.contains (b : BitmapPage) (page_id : Nat) : Bool :=
  decide (b.first_managed_page_id ≤ page_id ∧ page_id ≤ b.last_managed_page_id)

/-- `BitmapPage::mark_used(page_id, f)`.  The subtraction
`page_id - first_managed_page_id` is a `u32` subtraction; every caller in
the source passes `page_id ≥ first_managed_page_id`, so plain `Nat`
subtraction is exact.  The `as u16` cast is the `% 65536`.  `none` models a
panic inside `set`. -/
def BitmapPage.mark_used (b : BitmapPage) (page_id : Nat) (f : Nat → Bool) :
    Option (Bool × BitmapPage) :=
  let offset := page_id - b.first_managed_page_id
  match bmSet b.payload (offset % 65536) with
  | none => none
  | some (changed, payload2) =>
    if changed then
      let b1 := { b with payload := payload2, free_page_count := b.free_page_count - 1 }
      let b2 :=
        if page_id = b1.page_for b1.current_first_free_page_idx then
          { b1 with current_first_free_page_idx :=
              (findClearFiltered b1.payload ((b1.current_first_free_page_idx + 1) % 65536) f).getD 65535 }
        else b1
      let b3 :=
        if page_id = b2.page_for b2.first_free_page_idx then
          { b2 with first_free_page_idx :=
              (findClearFiltered b2.payload ((b2.first_free_page_idx + 1) % 65536)
                (fun _ => true)).getD 65535 }
        else b2
      some (true, b3)
    else some (false, b)

/-- `BitmapPage::mark_free(page_id)`; `none` models a panic inside `clear`. -/
def BitmapPage.mark_free (b : BitmapPage) (page_id : Nat) : Option BitmapPage :=
  let offset := page_id - b.first_managed_page_id
  match bmClear b.payload (offset % 65536) with
  | none => none
  | some (changed, payload2) =>
    if changed then
      let b1 := { b with payload := payload2, free_page_count := b.free_page_count + 1 }
      if page_id < b1.page_for b1.first_free_page_idx then
        some { b1 with first_free_page_idx := (page_id - b1.first_managed_page_id) % 65536 }
      else some b1
    else some b

/-- `BitmapPage::free(page_id)`: range-checked free. -/
def BitmapPage.free (b : BitmapPage) (page_id : Nat) : Option (Bool × BitmapPage) :=
  let in_range := b.first_managed_page_id ≤ page_id ∧ page_id ≤ b.last_managed_page_id
  if in_range then
    match b.mark_free page_id with
    | none => none
    | some b2 => some (true, b2)
  else some (false, b)

/-- `BitmapPage::new(first_managed_page_id)`. -/
def BitmapPage.new (first_managed_page_id : Nat) : Option BitmapPage :=
  let last_managed_page_id := first_managed_page_id + BITMAP_PAGE_COUNT - 1
  let b : BitmapPage :=
    { page_id := first_managed_page_id
      first_managed_page_id := first_managed_page_id
      last_managed_page_id := last_managed_page_id
      current_first_free_page_idx := 0
      first_free_page_idx := 0
      free_page_count := BITMAP_PAGE_COUNT
      payload := List.replicate 4080 0 }
  match b.mark_used first_managed_page_id (fun _ => true) with
  | none => none
  | some (_, b2) => some b2

/-- Read-only view of one page (`MemoryPage` in `src/io/store.rs`), reduced
to its byte content. -/
structure MemoryPage where
  content : List Nat
deriving Repr, DecidableEq

/-- `MemoryPage::page_id()` = `get_u32(0)`. -/
def MemoryPage.pageId (m : MemoryPage) : Option Nat := getU32 m.content 0

/-- `BitmapPage::load(page, f)`: find two filter-passing free slots, move
the bitmap to the first, keep the second as the new search cursor, free the
old location.  Outer `none` = panic, `some none` = Rust `None`.
Note the source sets `last_managed_page_id = first_managed_page_id +
BITMAP_PAGE_COUNT` (without the `- 1` used by `new` and `load_into`). -/
def BitmapPage.load (page : MemoryPage) (f : Nat → Bool) : Option (Option BitmapPage) :=
  match getU32 page.content 8, getU16 page.content 12, getU16 page.content 14,
        getU32 page.content 0 with
  | some first_managed_page_id, some free_page_count, some first_free_page_idx,
      some old_page_id =>
    let bitmap := page.content.drop BITMAP_HEADER_SIZE
    let filter := fun x => f (first_managed_page_id + x)
    match findClearFiltered bitmap first_free_page_idx filter with
    | none => some none
    | some current_idx =>
      match findClearFiltered bitmap (current_idx + 1) filter with
      | none => some none
      | some next_idx =>
        let page_id := first_managed_page_id + current_idx
        let b : BitmapPage :=
          { page_id := page_id
            first_managed_page_id := first_managed_page_id
            last_managed_page_id := first_managed_page_id + BITMAP_PAGE_COUNT
            current_first_free_page_idx := next_idx
            first_free_page_idx := first_free_page_idx
            free_page_count := free_page_count
            payload := bitmap }
        match b.mark_used page_id filter with
        | none => none
        | some (_, b2) =>
          match b2.free old_page_id with
          | none => none
          | some (_, b3) => some (some b3)
  | _, _, _, _ => none

/-- `BitmapPage::load_into(page, page_id)`: load at a caller-chosen id,
cursor starts at the persisted floor, old location freed. -/
def BitmapPage.load_into (page : MemoryPage) (page_id : Nat) : Option BitmapPage :=
  match getU32 page.content 8, getU16 page.content 12, getU16 page.content 14,
        getU32 page.content 0 with
  | some first_managed_page_id, some free_page_count, some first_free_page_idx,
      some old_page_id =>
    let b : BitmapPage :=
      { page_id := page_id
        first_managed_page_id := first_managed_page_id
        last_managed_page_id := first_managed_page_id + BITMAP_PAGE_COUNT - 1
        current_first_free_page_idx := first_free_page_idx
        first_free_page_idx := first_free_page_idx
        free_page_count := free_page_count
        payload := page.content.drop BITMAP_HEADER_SIZE }
    match b.free old_page_id with
    | none => none
    | some (_, b2) => some b2
  | _, _, _, _ => none

/-- `BitmapPage::allocate(f)`: search from the cursor, mark the hit used;
on failure park the cursor at the `0xFFFF` sentinel. -/
def BitmapPage.allocate (b : BitmapPage) (f : Nat → Bool) :
    Option (Option Nat × BitmapPage) :=
  let start_page := b.first_managed_page_id
  let filter := fun x => f (start_page + x)
  match findClearFiltered b.payload b.current_first_free_page_idx filter with
  | some idx =>
    let b1 := { b with current_first_free_page_idx := idx }
    match b1.mark_used (start_page + idx) filter with
    | none => none
    | some (_, b2) => some (some (start_page + idx), b2)
  | none => some (none, { b with current_first_free_page_idx := 65535 })

theorem scanBitsGo_some {byte bi : Nat} {f : Nat → Bool} {bit rem c : Nat}
    (h : scanBitsGo byte bi f bit rem = some c) :
    ∃ b2, bit ≤ b2 ∧ b2 < bit + rem ∧ c = bi * 8 + b2 ∧ byte &&& (1 <<< b2) = 0 ∧
      f c = true := by
  induction rem generalizing bit with
  | zero => exact absurd h (by simp [scanBitsGo])
  | succ rem ih =>
    rw [scanBitsGo] at h
    by_cases hclear : byte &&& (1 <<< bit) = 0
    · rw [if_pos hclear] at h
      by_cases hf : f ((bi <<< 3) + bit) = true
      · simp only [hf, if_pos] at h
        obtain rfl : (bi <<< 3) + bit = c := Option.some.inj h
        exact ⟨bit, le_refl _, by omega, by rw [Nat.shiftLeft_eq], hclear, hf⟩
      · simp only [hf, if_neg, Bool.false_eq_true, if_false] at h
        obtain ⟨b2, hb1, hb2, hb3, hb4, hb5⟩ := ih h
        exact ⟨b2, by omega, by omega, hb3, hb4, hb5⟩
    · rw [if_neg hclear] at h
      obtain ⟨b2, hb1, hb2, hb3, hb4, hb5⟩ := ih h
      exact ⟨b2, by omega, by omega, hb3, hb4, hb5⟩

theorem scanBitsFrom_some {byte bi : Nat} {f : Nat → Bool} {bit c : Nat}
    (h : scanBitsFrom byte bi f bit = some c) :
    ∃ b2, bit ≤ b2 ∧ b2 < 8 ∧ c = bi * 8 + b2 ∧ byte &&& (1 <<< b2) = 0 ∧ f c = true := by
  obtain ⟨b2, hb1, hb2, hb3, hb4, hb5⟩ := scanBitsGo_some h
  exact ⟨b2, hb1, by omega, hb3, hb4, hb5⟩

theorem scanRest_some {f : Nat → Bool} {l : List Nat} {i c : Nat}
    (h : scanRest f l i = some c) :
    ∃ j b2, j < l.length ∧ b2 < 8 ∧ c = (i + j) * 8 + b2 ∧
      (l.getD j 0) &&& (1 <<< b2) = 0 ∧ f c = true := by
  induction l generalizing i with
  | nil => exact absurd h (by simp [scanRest])
  | cons byte rest ih =>
    rw [scanRest] at h
    rcases hfst : (if byte ≠ 255 then scanBitsFrom byte i f 0 else none) with _ | c0
    · rw [hfst] at h
      obtain ⟨j, b2, hj, hb2, hc, hclear, hf⟩ := ih h
      exact ⟨j + 1, b2, by simpa using hj, hb2, by omega, by simpa using hclear, hf⟩
    · rw [hfst] at h
      obtain rfl : c0 = c := Option.some.inj h
      by_cases hb : byte ≠ 255
      · rw [if_pos hb] at hfst
        obtain ⟨b2, _, hb2, hc, hclear, hf⟩ := scanBitsFrom_some hfst
        exact ⟨0, b2, by simp, hb2, by omega, by simpa using hclear, hf⟩
      · rw [if_neg hb] at hfst
        exact absurd hfst (by simp)

theorem findClearFiltered_some {l : List Nat} {offset c : Nat} {f : Nat → Bool}
    (h : findClearFiltered l offset f = some c) :
    offset ≤ c ∧ c < 8 * l.length ∧ (l.getD (c >>> 3) 0) &&& (1 <<< (c &&& 7)) = 0 ∧
      f c = true := by
  rw [findClearFiltered] at h
  by_cases hlen : offset >>> 3 ≥ l.length
  · rw [if_pos hlen] at h
    exact absurd h (by simp)
  · rw [if_neg hlen] at h
    have hbs : offset >>> 3 < l.length := by omega
    have hoff : offset = (offset >>> 3) * 8 + (offset &&& 7) := by
      rw [Nat.shiftRight_eq_div_pow]
      have h7 : offset &&& 7 = offset % 8 := by
        have : (7 : Nat) = 2 ^ 3 - 1 := by norm_num
        rw [this, Nat.and_pow_two_sub_one_eq_mod]
      rw [h7]
      omega
    have hand7 : offset &&& 7 < 8 := by
      have h7 : offset &&& 7 = offset % 8 := by
        have : (7 : Nat) = 2 ^ 3 - 1 := by norm_num
        rw [this, Nat.and_pow_two_sub_one_eq_mod]
      omega
    rcases hfst : (if l.getD (offset >>> 3) 0 ≠ 255 then
        scanBitsFrom (l.getD (offset >>> 3) 0) (offset >>> 3) f (offset &&& 7)
      else none) with _ | c0
    · rw [hfst] at h
      obtain ⟨j, b2, hj, hb2, hc, hclear, hf⟩ := scanRest_some h
      have hdroplen : (l.drop (offset >>> 3 + 1)).length = l.length - (offset >>> 3 + 1) :=
        List.length_drop _ _
      have hjlen : offset >>> 3 + 1 + j < l.length := by omega
      have hgetd : (l.drop (offset >>> 3 + 1)).getD j 0 = l.getD (offset >>> 3 + 1 + j) 0 := by
        rw [List.getD_eq_getElem?_getD, List.getD_eq_getElem?_getD, List.getElem?_drop]
      refine ⟨by omega, by omega, ?_, hf⟩
      have hcdiv : c >>> 3 = offset >>> 3 + 1 + j := by
        rw [Nat.shiftRight_eq_div_pow]
        omega
      have hcmod : c &&& 7 = b2 := by
        have h7 : c &&& 7 = c % 8 := by
          have : (7 : Nat) = 2 ^ 3 - 1 := by norm_num
          rw [this, Nat.and_pow_two_sub_one_eq_mod]
        rw [h7]
        omega
      rw [hcdiv, hcmod]
      rw [hgetd] at hclear
      exact hclear
    · rw [hfst] at h
      have hcc : c0 = c := Option.some.inj h
      rw [hcc] at hfst
      by_cases hb : l.getD (offset >>> 3) 0 ≠ 255
      · rw [if_pos hb] at hfst
        obtain ⟨b2, hble, hb2, hc, hclear, hf⟩ := scanBitsFrom_some hfst
        refine ⟨by omega, by omega, ?_, hf⟩
        have hcdiv : c >>> 3 = offset >>> 3 := by
          rw [Nat.shiftRight_eq_div_pow]
          omega
        have hcmod : c &&& 7 = b2 := by
          have h7 : c &&& 7 = c % 8 := by
            have : (7 : Nat) = 2 ^ 3 - 1 := by norm_num
            rw [this, Nat.and_pow_two_sub_one_eq_mod]
          rw [h7]
          omega
        rw [hcdiv, hcmod]
        exact hclear
      · rw [if_neg hb] at hfst
        exact absurd hfst (by simp)

theorem option_eq_some_getD {o : Option Nat} (h : o.isSome = true) : o = some (o.getD 0) := by
  cases o <;> simp_all

/-- The bitmap payload slice a `load` works on: `page.content()[16..]`. -/
def loadPayloadOf (page : MemoryPage) : List Nat := page.content.drop BITMAP_HEADER_SIZE

/-- The `first_managed_page_id` header field read by `load`. -/
def loadFirstManaged (page : MemoryPage) : Nat := (getU32 page.content 8).getD 0

/-- The `first_free_page_idx` header field read by `load`. -/
def loadFirstFreeIdx (page : MemoryPage) : Nat := (getU16 page.content 14).getD 0

/-- Two distinct zero-bit indices `i < j` of the persisted payload, with `i`
at or after the persisted `first_free_page_idx`, whose absolute page ids
both pass the filter — the side condition of `BitmapPage::load`. -/
def loadQualifyingPair (page : MemoryPage) (f : Nat → Bool) : Prop :=
  ∃ i j, loadFirstFreeIdx page ≤ i ∧ i < j ∧ j < 8 * (loadPayloadOf page).length ∧
    bitClearAt (loadPayloadOf page) i ∧ bitClearAt (loadPayloadOf page) j ∧
    f (loadFirstManaged page + i) = true ∧ f (loadFirstManaged page + j) = true

/-- C1: `BitmapPage::load(view, filter)` returns `Some` only if the payload
holds two distinct zero-bit indices `current_idx < next_idx`, with
`current_idx` at or after the persisted `first_free_page_idx` and both
absolute ids passing the filter; when no such pair exists it returns
`None`. -/
theorem C1_load_two_free_slots (page : MemoryPage) (f : Nat → Bool)
    (hlen : BITMAP_HEADER_SIZE ≤ page.content.length) :
    (∀ b, BitmapPage.load page f = some (some b) → loadQualifyingPair page f) ∧
    (¬ loadQualifyingPair page f → BitmapPage.load page f = some none) := by
  have hlen2 : 16 ≤ page.content.length := hlen
  have hs8 : (getU32 page.content 8).isSome = true := by
    simp only [getU32]
    rw [if_pos (by omega)]
    rfl
  have hs12 : (getU16 page.content 12).isSome = true := by
    simp only [getU16]
    rw [if_pos (by omega)]
    rfl
  have hs14 : (getU16 page.content 14).isSome = true := by
    simp only [getU16]
    rw [if_pos (by omega)]
    rfl
  have hs0 : (getU32 page.content 0).isSome = true := by
    simp only [getU32]
    rw [if_pos (by omega)]
    rfl
  have h8 := option_eq_some_getD hs8
  have h12 := option_eq_some_getD hs12
  have h14 := option_eq_some_getD hs14
  have h0 := option_eq_some_getD hs0
  constructor
  · intro b hb
    unfold BitmapPage.load at hb
    rw [h8, h12, h14, h0] at hb
    dsimp only at hb
    rcases hf1 : findClearFiltered (page.content.drop BITMAP_HEADER_SIZE)
        ((getU16 page.content 14).getD 0)
        (fun x => f ((getU32 page.content 8).getD 0 + x)) with _ | ci
    · rw [hf1] at hb
      simp at hb
    · rw [hf1] at hb
      dsimp only at hb
      rcases hf2 : findClearFiltered (page.content.drop BITMAP_HEADER_SIZE) (ci + 1)
          (fun x => f ((getU32 page.content 8).getD 0 + x)) with _ | ni
      · rw [hf2] at hb
        simp at hb
      · obtain ⟨hge1, hlt1, hclear1, hfil1⟩ := findClearFiltered_some hf1
        obtain ⟨hge2, hlt2, hclear2, hfil2⟩ := findClearFiltered_some hf2
        refine ⟨ci, ni, hge1, by omega, hlt2, hclear1, hclear2, ?_, ?_⟩
        · simpa using hfil1
        · simpa using hfil2
  · intro hnp
    unfold BitmapPage.load
    rw [h8, h12, h14, h0]
    dsimp only
    rcases hf1 : findClearFiltered (page.content.drop BITMAP_HEADER_SIZE)
        ((getU16 page.content 14).getD 0)
        (fun x => f ((getU32 page.content 8).getD 0 + x)) with _ | ci
    · rfl
    · dsimp only
      rcases hf2 : findClearFiltered (page.content.drop BITMAP_HEADER_SIZE) (ci + 1)
          (fun x => f ((getU32 page.content 8).getD 0 + x)) with _ | ni
      · rfl
      · exfalso
        apply hnp
        obtain ⟨hge1, hlt1, hclear1, hfil1⟩ := findClearFiltered_some hf1
        obtain ⟨hge2, hlt2, hclear2, hfil2⟩ := findClearFiltered_some hf2
        refine ⟨ci, ni, hge1, by omega, hlt2, hclear1, hclear2, ?_, ?_⟩
        · simpa using hfil1
        · simpa using hfil2

/-- Fallback value used only to extract results out of `Option`. -/
def emptyBitmapPage : BitmapPage :=
  { page_id := 0, first_managed_page_id := 0, last_managed_page_id := 0,
    current_first_free_page_idx := 0, first_free_page_idx := 0,
    free_page_count := 0, payload := [] }

/-- A concrete persisted bitmap view: page id 7, type 1,
`first_managed_page_id` 2, `free_page_count` 8, `first_free_page_idx` 0,
and a one-byte all-clear payload slice. -/
def c1WitnessPage : MemoryPage :=
  { content := [7, 0, 0, 0, 1, 0, 0, 0, 2, 0, 0, 0, 8, 0, 0, 0, 0] }

def c1WitnessLoaded : BitmapPage :=
  ((BitmapPage.load c1WitnessPage (fun _ => true)).getD none).getD emptyBitmapPage

theorem C1_load_two_free_slots_witness :
    loadQualifyingPair c1WitnessPage (fun _ => true) ∧
    BitmapPage.load c1WitnessPage (fun _ => false) = some none := by
  have hlen : BITMAP_HEADER_SIZE ≤ c1WitnessPage.content.length := by
    simp [c1WitnessPage, BITMAP_HEADER_SIZE]
  constructor
  · exact (C1_load_two_free_slots c1WitnessPage (fun _ => true) hlen).1
      c1WitnessLoaded (by rfl)
  · refine (C1_load_two_free_slots c1WitnessPage (fun _ => false) hlen).2 ?_
    rintro ⟨i, j, -, -, -, -, -, hfi, -⟩
    simp at hfi

theorem bmSet_inv {l : List Nat} {i : Nat} {ch : Bool} {l2 : List Nat}
    (h : bmSet l i = some (ch, l2)) :
    l2.length = l.length ∧ (ch = false → l2 = l) := by
  unfold bmSet at h
  by_cases hb : i >>> 3 < l.length
  · rw [dif_pos hb] at h
    dsimp only at h
    split_ifs at h with hc
    · obtain ⟨rfl, rfl⟩ := Prod.mk.injEq .. ▸ Option.some.inj h
      exact ⟨List.length_set .., by simp⟩
    · obtain ⟨rfl, rfl⟩ := Prod.mk.injEq .. ▸ Option.some.inj h
      exact ⟨rfl, fun _ => rfl⟩
  · rw [dif_neg hb] at h
    exact absurd h (by simp)

theorem bmClear_inv {l : List Nat} {i : Nat} {ch : Bool} {l2 : List Nat}
    (h : bmClear l i = some (ch, l2)) :
    l2.length = l.length ∧ (ch = false → l2 = l) := by
  unfold bmClear at h
  by_cases hb : i >>> 3 < l.length
  · rw [dif_pos hb] at h
    dsimp only at h
    split_ifs at h with hc
    · obtain ⟨rfl, rfl⟩ := Prod.mk.injEq .. ▸ Option.some.inj h
      exact ⟨List.length_set .., by simp⟩
    · obtain ⟨rfl, rfl⟩ := Prod.mk.injEq .. ▸ Option.some.inj h
      exact ⟨rfl, fun _ => rfl⟩
  · rw [dif_neg hb] at h
    exact absurd h (by simp)

theorem mark_used_inv {b : BitmapPage} {pid : Nat} {f : Nat → Bool} {ch : Bool}
    {b2 : BitmapPage} (h : b.mark_used pid f = some (ch, b2)) :
    b2.first_managed_page_id = b.first_managed_page_id ∧
    b2.last_managed_page_id = b.last_managed_page_id ∧
    b2.page_id = b.page_id ∧ b2.payload.length = b.payload.length := by
  unfold BitmapPage.mark_used at h
  dsimp only at h
  rcases hset : bmSet b.payload ((pid - b.first_managed_page_id) % 65536) with _ | ⟨ch0, pl⟩
  · rw [hset] at h
    exact absurd h (by simp)
  · rw [hset] at h
    dsimp only at h
    obtain ⟨hlen, hid⟩ := bmSet_inv hset
    rcases ch0 with _ | _
    · simp only [Bool.false_eq_true, if_false] at h
      obtain ⟨-, rfl⟩ := Prod.mk.injEq .. ▸ Option.some.inj h
      exact ⟨rfl, rfl, rfl, rfl⟩
    · simp only [if_true] at h
      obtain ⟨-, rfl⟩ := Prod.mk.injEq .. ▸ Option.some.inj h
      constructor
      · split_ifs <;> rfl
      constructor
      · split_ifs <;> rfl
      constructor
      · split_ifs <;> rfl
      · split_ifs <;> exact hlen

theorem mark_free_inv {b : BitmapPage} {pid : Nat} {b2 : BitmapPage}
    (h : b.mark_free pid = some b2) :
    b2.first_managed_page_id = b.first_managed_page_id ∧
    b2.last_managed_page_id = b.last_managed_page_id ∧
    b2.page_id = b.page_id ∧ b2.payload.length = b.payload.length ∧
    b2.current_first_free_page_idx = b.current_first_free_page_idx := by
  unfold BitmapPage.mark_free at h
  dsimp only at h
  rcases hclr : bmClear b.payload ((pid - b.first_managed_page_id) % 65536) with _ | ⟨ch0, pl⟩
  · rw [hclr] at h
    exact absurd h (by simp)
  · rw [hclr] at h
    dsimp only at h
    obtain ⟨hlen, hid⟩ := bmClear_inv hclr
    rcases ch0 with _ | _
    · simp only [Bool.false_eq_true, if_false] at h
      obtain rfl := Option.some.inj h
      exact ⟨rfl, rfl, rfl, rfl, rfl⟩
    · simp only [if_true] at h
      split_ifs at h with hlt
      · obtain rfl := Option.some.inj h
        exact ⟨rfl, rfl, rfl, hlen, rfl⟩
      · obtain rfl := Option.some.inj h
        exact ⟨rfl, rfl, rfl, hlen, rfl⟩

theorem free_inv {b : BitmapPage} {pid : Nat} {r : Bool} {b2 : BitmapPage}
    (h : b.free pid = some (r, b2)) :
    b2.first_managed_page_id = b.first_managed_page_id ∧
    b2.last_managed_page_id = b.last_managed_page_id ∧
    b2.page_id = b.page_id ∧ b2.payload.length = b.payload.length ∧
    b2.current_first_free_page_idx = b.current_first_free_page_idx := by
  unfold BitmapPage.free at h
  dsimp only at h
  split_ifs at h with hin
  · rcases hmf : b.mark_free pid with _ | b3
    · rw [hmf] at h
      exact absurd h (by simp)
    · rw [hmf] at h
      obtain ⟨-, rfl⟩ := Prod.mk.injEq .. ▸ Option.some.inj h
      exact mark_free_inv hmf
  · obtain ⟨-, rfl⟩ := Prod.mk.injEq .. ▸ Option.some.inj h
    exact ⟨rfl, rfl, rfl, rfl, rfl⟩

theorem load_some_fields {page : MemoryPage} {f : Nat → Bool} {b : BitmapPage}
    (h : BitmapPage.load page f = some (some b)) :
    b.first_managed_page_id = loadFirstManaged page ∧
    b.last_managed_page_id = loadFirstManaged page + BITMAP_PAGE_COUNT := by
  unfold BitmapPage.load at h
  split at h
  · rename_i fm fpc ffi old h8 h12 h14 h0
    dsimp only at h
    split at h
    · exact absurd h (by simp)
    · rename_i ci hf1
      split at h
      · exact absurd h (by simp)
      · rename_i ni hf2
        split at h
        · exact absurd h (by simp)
        · rename_i ch b2 hmu
          split at h
          · exact absurd h (by simp)
          · rename_i r b3 hfree
            obtain rfl : b3 = b := Option.some.inj (Option.some.inj h)
            obtain ⟨hfi1, hla1, -, -⟩ := mark_used_inv hmu
            obtain ⟨hfi2, hla2, -, -, -⟩ := free_inv hfree
            have hfm : loadFirstManaged page = fm := by
              rw [loadFirstManaged, h8]
              rfl
            rw [hfm]
            constructor
            · rw [hfi2, hfi1]
            · rw [hla2, hla1]
  · exact absurd h (by simp)

/-- C4 (code bug): a `load`-constructed bitmap gets
`last_managed_page_id = first_managed_page_id + BITMAP_PAGE_COUNT` (the
source omits the `- 1` used by `new` and `load_into`), so the id
`first_managed_page_id + BITMAP_PAGE_COUNT` — outside the claimed managed
range `[first, first + B - 1]` — passes `free`'s range check and `clear`
then indexes byte 4080 of the 4080-byte payload: a panic (`none`), not the
claimed `false`-and-unchanged. -/
theorem C4_load_range_off_by_one :
    (∀ (page : MemoryPage) (f : Nat → Bool) (b : BitmapPage),
      BitmapPage.load page f = some (some b) →
      b.first_managed_page_id = loadFirstManaged page ∧
      b.last_managed_page_id = loadFirstManaged page + BITMAP_PAGE_COUNT) ∧
    (∀ b : BitmapPage,
      b.last_managed_page_id = b.first_managed_page_id + BITMAP_PAGE_COUNT →
      8 * b.payload.length ≤ BITMAP_PAGE_COUNT →
      b.free (b.first_managed_page_id + BITMAP_PAGE_COUNT) = none) := by
  constructor
  · exact fun page f b h => load_some_fields h
  · intro b hlast hlen
    unfold BitmapPage.free
    dsimp only
    rw [if_pos ⟨Nat.le_add_right _ _, hlast ▸ le_refl _⟩]
    have hoff : (b.first_managed_page_id + BITMAP_PAGE_COUNT - b.first_managed_page_id) % 65536 =
        BITMAP_PAGE_COUNT := by
      have : b.first_managed_page_id + BITMAP_PAGE_COUNT - b.first_managed_page_id =
          BITMAP_PAGE_COUNT := by omega
      rw [this]
      norm_num [BITMAP_PAGE_COUNT, PAGE_SIZE, BITMAP_HEADER_SIZE]
    unfold BitmapPage.mark_free
    dsimp only
    rw [hoff]
    have hnone : bmClear b.payload BITMAP_PAGE_COUNT = none := by
      unfold bmClear
      dsimp only
      rw [dif_neg]
      have h1 : BITMAP_PAGE_COUNT >>> 3 = 4080 := by
        norm_num [BITMAP_PAGE_COUNT, PAGE_SIZE, BITMAP_HEADER_SIZE, Nat.shiftRight_eq_div_pow]
      rw [h1]
      omega
    rw [hnone]

/-- A concrete persisted bitmap view for C4: page id 9, type 1,
`first_managed_page_id` 2, one-byte all-clear payload slice. -/
def c4Page : MemoryPage :=
  { content := [9, 0, 0, 0, 1, 0, 0, 0, 2, 0, 0, 0, 8, 0, 0, 0, 0] }

def c4Loaded : BitmapPage :=
  ((BitmapPage.load c4Page (fun _ => true)).getD none).getD emptyBitmapPage

/-- A bitmap with the shape `load` produces on a real 4096-byte page:
`last_managed_page_id = first + BITMAP_PAGE_COUNT`, 4080-byte payload. -/
def c4FullSized : BitmapPage :=
  { page_id := 2, first_managed_page_id := 2,
    last_managed_page_id := 2 + BITMAP_PAGE_COUNT,
    current_first_free_page_idx := 1, first_free_page_idx := 1,
    free_page_count := 7, payload := List.replicate 4080 0 }

theorem C4_load_range_off_by_one_witness :
    (c4Loaded.first_managed_page_id = 2 ∧
      c4Loaded.last_managed_page_id = 2 + BITMAP_PAGE_COUNT) ∧
    c4FullSized.free (2 + BITMAP_PAGE_COUNT) = none := by
  constructor
  · have h := C4_load_range_off_by_one.1 c4Page (fun _ => true) c4Loaded (by rfl)
    have hfm : loadFirstManaged c4Page = 2 := by rfl
    rw [hfm] at h
    exact h
  · have h := C4_load_range_off_by_one.2 c4FullSized (by rfl) ?_
    · exact h
    · rw [show c4FullSized.payload = List.replicate 4080 0 from rfl, List.length_replicate]
      norm_num [BITMAP_PAGE_COUNT, PAGE_SIZE, BITMAP_HEADER_SIZE]

theorem getD_set_self {l : List Nat} {i v : Nat} (h : i < l.length) :
    (l.set i v).getD i 0 = v := by
  simp [List.getD_eq_getElem?_getD, List.getElem?_set, h]

theorem getD_set_ne {l : List Nat} {i j v : Nat} (h : i ≠ j) :
    (l.set i v).getD j 0 = l.getD j 0 := by
  simp [List.getD_eq_getElem?_getD, List.getElem?_set, h]

theorem getD_replicate {n a i : Nat} (h : i < n) :
    (List.replicate n a).getD i 0 = a := by
  simp [List.getD_eq_getElem?_getD, List.getElem?_replicate, h]

/-- The bitmap produced by `BitmapPage::new(f)`: own bit set, both cursors
advanced to 1, one page consumed. -/
def newBitmap (f : Nat) : BitmapPage :=
  { page_id := f, first_managed_page_id := f,
    last_managed_page_id := f + BITMAP_PAGE_COUNT - 1,
    current_first_free_page_idx := 1, first_free_page_idx := 1,
    free_page_count := BITMAP_PAGE_COUNT - 1,
    payload := (List.replicate 4080 0).set 0 1 }

theorem new_eq (f : Nat) : BitmapPage.new f = some (newBitmap f) := by
  have hset : bmSet (List.replicate 4080 0) (0 % 65536) =
      some (true, (List.replicate 4080 0).set 0 1) := by
    unfold bmSet
    rw [dif_pos (by rw [List.length_replicate]; norm_num)]
    rfl
  have hfind : findClearFiltered ((List.replicate 4080 0).set 0 1) (1 % 65536)
      (fun _ => true) = some 1 := by
    unfold findClearFiltered
    rw [if_neg (by rw [List.length_set, List.length_replicate]; decide)]
    rfl
  unfold BitmapPage.new BitmapPage.mark_used
  dsimp only
  rw [show f - f = 0 from by omega, hset]
  simp only [BitmapPage.page_for, Nat.add_zero, Nat.zero_add, eq_self_iff_true, if_true,
    ite_true, hfind]
  rfl

theorem findClearFiltered_high {l : List Nat} {offset : Nat} {f : Nat → Bool}
    (h : l.length ≤ offset >>> 3) : findClearFiltered l offset f = none := by
  unfold findClearFiltered
  rw [if_pos (by omega)]

theorem mark_used_cursor_advance {b : BitmapPage} {idx : Nat} {f : Nat → Bool}
    {ch : Bool} {b2 : BitmapPage}
    (hcur : b.current_first_free_page_idx = idx)
    (hm : idx + 1 < 65536)
    (hclear : (b.payload.getD (idx >>> 3) 0) &&& (1 <<< (idx &&& 7)) = 0)
    (hlt : idx >>> 3 < b.payload.length)
    (h : b.mark_used (b.first_managed_page_id + idx) f = some (ch, b2)) :
    idx + 1 ≤ b2.current_first_free_page_idx := by
  unfold BitmapPage.mark_used at h
  dsimp only at h
  rw [Nat.add_sub_cancel_left, Nat.mod_eq_of_lt (by omega)] at h
  have hset : bmSet b.payload idx = some (true, b.payload.set (idx >>> 3)
      ((b.payload.getD (idx >>> 3) 0) ||| (1 <<< (idx &&& 7)))) := by
    unfold bmSet
    rw [dif_pos hlt]
    dsimp only
    rw [if_pos hclear]
  rw [hset] at h
  dsimp only at h
  rw [hcur] at h
  simp only [BitmapPage.page_for, eq_self_iff_true, if_true] at h
  rw [Nat.mod_eq_of_lt hm] at h
  rcases hf2 : findClearFiltered (b.payload.set (idx >>> 3)
      ((b.payload.getD (idx >>> 3) 0) ||| (1 <<< (idx &&& 7)))) (idx + 1) f with _ | c
  · rw [hf2] at h
    split_ifs at h <;>
      (obtain ⟨-, rfl⟩ := Prod.mk.injEq .. ▸ Option.some.inj h; simp; omega)
  · rw [hf2] at h
    have hge := (findClearFiltered_some hf2).1
    split_ifs at h <;>
      (obtain ⟨-, rfl⟩ := Prod.mk.injEq .. ▸ Option.some.inj h; simp; omega)

theorem allocate_some_inv {s : BitmapPage} {f : Nat → Bool} {r : Nat} {s2 : BitmapPage}
    (hlen : 8 * s.payload.length ≤ 65535)
    (h : s.allocate f = some (some r, s2)) :
    ∃ idx, r = s.first_managed_page_id + idx ∧ s.current_first_free_page_idx ≤ idx ∧
      s2.first_managed_page_id = s.first_managed_page_id ∧
      s2.last_managed_page_id = s.last_managed_page_id ∧
      s2.payload.length = s.payload.length ∧
      idx + 1 ≤ s2.current_first_free_page_idx := by
  unfold BitmapPage.allocate at h
  dsimp only at h
  split at h
  · rename_i idx hf1
    split at h
    · exact absurd h (by simp)
    · rename_i ch b2 hmu
      obtain ⟨heq1, rfl⟩ := Prod.mk.injEq .. ▸ Option.some.inj h
      obtain rfl : s.first_managed_page_id + idx = r := Option.some.inj heq1
      obtain ⟨hge, hlt, hclear, -⟩ := findClearFiltered_some hf1
      have hdiv : idx >>> 3 = idx / 8 := by
        rw [Nat.shiftRight_eq_div_pow]
      have hfst : ({ s with current_first_free_page_idx := idx } :
          BitmapPage).first_managed_page_id = s.first_managed_page_id := rfl
      obtain ⟨hb1, hb2, hb3, hb4⟩ := mark_used_inv hmu
      have hcadv := @mark_used_cursor_advance { s with current_first_free_page_idx := idx }
        idx (fun x => f (s.first_managed_page_id + x)) ch b2 rfl (by omega) hclear (show idx >>> 3 < s.payload.length from by
          rw [hdiv]; omega) hmu
      exact ⟨idx, rfl, hge, hb1, hb2, hb4, hcadv⟩
  · exact absurd h (by simp)

theorem allocate_none_state {s : BitmapPage} {f : Nat → Bool} {s2 : BitmapPage}
    (h : s.allocate f = some (none, s2)) :
    s2 = { s with current_first_free_page_idx := 65535 } := by
  unfold BitmapPage.allocate at h
  dsimp only at h
  split at h
  · split at h
    · exact absurd h (by simp)
    · exact absurd h (by simp)
  · obtain ⟨-, rfl⟩ := Prod.mk.injEq .. ▸ Option.some.inj h
    rfl

theorem allocate_stuck {s : BitmapPage} {f : Nat → Bool}
    (hcur : s.current_first_free_page_idx = 65535) (hlen : s.payload.length ≤ 8191) :
    s.allocate f = some (none, { s with current_first_free_page_idx := 65535 }) := by
  unfold BitmapPage.allocate
  dsimp only
  rw [hcur, findClearFiltered_high (by rw [Nat.shiftRight_eq_div_pow]; norm_num; omega)]

theorem mark_used_none {b : BitmapPage} {pid : Nat} {f : Nat → Bool}
    (h : b.mark_used pid f = none) :
    b.payload.length ≤ ((pid - b.first_managed_page_id) % 65536) >>> 3 := by
  unfold BitmapPage.mark_used at h
  dsimp only at h
  rcases hset : bmSet b.payload ((pid - b.first_managed_page_id) % 65536) with _ | ⟨ch, pl⟩
  · unfold bmSet at hset
    by_cases hb : ((pid - b.first_managed_page_id) % 65536) >>> 3 < b.payload.length
    · rw [dif_pos hb] at hset
      dsimp only at hset
      split_ifs at hset
    · omega
  · rw [hset] at h
    dsimp only at h
    split_ifs at h

/-- C6: with an always-true filter, allocations from `new(f)` start at
`f + 1` and strictly increase; an intervening `free` (which lowers only
`first_free_page_idx`, never the cursor) does not break the strict
increase. -/
theorem C6_allocate_monotone :
    (∀ f b0, BitmapPage.new f = some b0 →
      (b0.allocate (fun _ => true)).map Prod.fst = some (some (f + 1))) ∧
    (∀ (s s1 s2 : BitmapPage) (r1 r2 : Nat), 8 * s.payload.length ≤ 65535 →
      s.allocate (fun _ => true) = some (some r1, s1) →
      s1.allocate (fun _ => true) = some (some r2, s2) → r1 < r2) ∧
    (∀ (s s1 s1' s2 : BitmapPage) (r1 p r2 : Nat) (bb : Bool),
      8 * s.payload.length ≤ 65535 →
      s.allocate (fun _ => true) = some (some r1, s1) →
      s1.free p = some (bb, s1') →
      s1'.allocate (fun _ => true) = some (some r2, s2) → r1 < r2) := by
  refine ⟨?_, ?_, ?_⟩
  · intro f b0 hb0
    rw [new_eq] at hb0
    obtain rfl := Option.some.inj hb0
    have hfind1 : findClearFiltered ((List.replicate 4080 0).set 0 1) 1
        (fun _ => true) = some 1 := by
      unfold findClearFiltered
      rw [if_neg (by rw [List.length_set, List.length_replicate]; decide)]
      rfl
    unfold BitmapPage.allocate
    dsimp only [newBitmap]
    rw [hfind1]
    dsimp only
    rcases hmu : BitmapPage.mark_used
        { page_id := f, first_managed_page_id := f,
          last_managed_page_id := f + BITMAP_PAGE_COUNT - 1,
          current_first_free_page_idx := 1, first_free_page_idx := 1,
          free_page_count := BITMAP_PAGE_COUNT - 1,
          payload := (List.replicate 4080 0).set 0 1 }
        (f + 1) (fun x => true) with _ | ⟨ch, b2⟩
    · have := mark_used_none hmu
      rw [List.length_set, List.length_replicate] at this
      rw [show f + 1 - f = 1 from by omega] at this
      exact absurd this (by decide)
    · rfl
  · intro s s1 s2 r1 r2 hlen h1 h2
    obtain ⟨i1, rfl, hge1, hfi1, -, hp1, hc1⟩ := allocate_some_inv hlen h1
    obtain ⟨i2, rfl, hge2, -, -, -, -⟩ := allocate_some_inv (by rw [hp1]; exact hlen) h2
    rw [hfi1]
    omega
  · intro s s1 s1' s2 r1 p r2 bb hlen h1 hfree h2
    obtain ⟨i1, rfl, hge1, hfi1, -, hp1, hc1⟩ := allocate_some_inv hlen h1
    obtain ⟨hff, -, -, hfp, hfc⟩ := free_inv hfree
    obtain ⟨i2, rfl, hge2, -, -, -, -⟩ := allocate_some_inv
      (by rw [hfp, hp1]; exact hlen) h2
    rw [hff, hfi1]
    rw [hfc] at hge2
    omega

/-- A small bitmap state used to exercise the allocate/free lemmas: eight
managed pages starting at id 10, all free. -/
def c6s0 : BitmapPage :=
  { page_id := 10, first_managed_page_id := 10, last_managed_page_id := 17,
    current_first_free_page_idx := 0, first_free_page_idx := 0,
    free_page_count := 8, payload := [0] }

def c6s1 : BitmapPage :=
  ((c6s0.allocate (fun _ => true)).getD (none, emptyBitmapPage)).2

def c6s2 : BitmapPage :=
  ((c6s1.allocate (fun _ => true)).getD (none, emptyBitmapPage)).2

def c6s3 : BitmapPage :=
  ((c6s2.free 10).getD (false, emptyBitmapPage)).2

def c6s4 : BitmapPage :=
  ((c6s3.allocate (fun _ => true)).getD (none, emptyBitmapPage)).2

theorem C6_allocate_monotone_witness :
    ((newBitmap 2).allocate (fun _ => true)).map Prod.fst = some (some (2 + 1)) ∧
    (10 : Nat) < 11 ∧ (11 : Nat) < 12 := by
  refine ⟨C6_allocate_monotone.1 2 (newBitmap 2) (new_eq 2), ?_, ?_⟩
  · exact C6_allocate_monotone.2.1 c6s0 c6s1 c6s2 10 11 (by decide) (by rfl) (by rfl)
  · exact C6_allocate_monotone.2.2 c6s1 c6s2 c6s3 c6s4 11 10 12 true (by decide)
      (by rfl) (by rfl) (by rfl)

/-- One client call on an in-memory `BitmapPage`: `allocate(filter)` or
`free(page_id)`. -/
inductive BMOp where
  | alloc (f : Nat → Bool)
  | fre (page_id : Nat)

/-- Run a sequence of `allocate`/`free` calls, recording every `allocate`
result; `none` if any call panics. -/
def runOpsR : BitmapPage → List BMOp → Option (List (Option Nat) × BitmapPage)
  | b, [] => some ([], b)
  | b, BMOp.alloc f :: rest =>
    match b.allocate f with
    | none => none
    | some (r, b2) =>
      match runOpsR b2 rest with
      | none => none
      | some (rs, b3) => some (r :: rs, b3)
  | b, BMOp.fre p :: rest =>
    match b.free p with
    | none => none
    | some (_, b2) => runOpsR b2 rest

theorem runOpsR_stuck :
    ∀ (ops : List BMOp) (t : BitmapPage), t.current_first_free_page_idx = 65535 →
      t.payload.length ≤ 8191 →
      ∀ (rs : List (Option Nat)) (s2 : BitmapPage),
        runOpsR t ops = some (rs, s2) → ∀ r ∈ rs, r = none := by
  intro ops
  induction ops with
  | nil =>
    intro t hc hl rs s2 h r hr
    simp only [runOpsR] at h
    obtain ⟨rfl, -⟩ := Prod.mk.injEq .. ▸ Option.some.inj h
    simp at hr
  | cons op rest ih =>
    intro t hc hl rs s2 h r hr
    cases op with
    | alloc f2 =>
      simp only [runOpsR] at h
      rw [allocate_stuck hc hl] at h
      dsimp only at h
      rcases hrun : runOpsR { t with current_first_free_page_idx := 65535 } rest
          with _ | ⟨rs2, s3⟩
      · rw [hrun] at h
        exact absurd h (by simp)
      · rw [hrun] at h
        obtain ⟨rfl, -⟩ := Prod.mk.injEq .. ▸ Option.some.inj h
        rcases List.mem_cons.mp hr with rfl | hmem
        · rfl
        · exact ih { t with current_first_free_page_idx := 65535 } rfl hl rs2 s3 hrun r hmem
    | fre p =>
      simp only [runOpsR] at h
      rcases hfr : t.free p with _ | ⟨bb, t2⟩
      · rw [hfr] at h
        exact absurd h (by simp)
      · rw [hfr] at h
        obtain ⟨-, -, -, hfp, hfc⟩ := free_inv hfr
        exact ih t2 (by rw [hfc, hc]) (by rw [hfp]; exact hl) rs s2 h r hr

/-- C10: once `allocate` returns `None` (parking the cursor at the
`0xFFFF` sentinel), every later `allocate` on the same instance returns
`None` as well, across any interleaving of further `allocate`/`free`
calls: `free` never lowers `current_first_free_page_idx`, and a search
from `0xFFFF` starts past the payload. -/
theorem C10_allocate_none_is_final :
    ∀ (s s1 : BitmapPage) (f : Nat → Bool), s.payload.length ≤ 8191 →
      s.allocate f = some (none, s1) →
      ∀ (ops : List BMOp) (rs : List (Option Nat)) (s2 : BitmapPage),
        runOpsR s1 ops = some (rs, s2) → ∀ r ∈ rs, r = none := by
  intro s s1 f hl h ops rs s2 hrun r hr
  obtain rfl := allocate_none_state h
  exact runOpsR_stuck ops { s with current_first_free_page_idx := 65535 } rfl hl
    rs s2 hrun r hr

/-- A small exhausted bitmap: every bit of its one-byte payload set. -/
def c10s0 : BitmapPage :=
  { page_id := 10, first_managed_page_id := 10, last_managed_page_id := 17,
    current_first_free_page_idx := 0, first_free_page_idx := 0,
    free_page_count := 0, payload := [255] }

def c10s1 : BitmapPage :=
  ((c10s0.allocate (fun _ => true)).getD (none, emptyBitmapPage)).2

def c10run : List (Option Nat) × BitmapPage :=
  (runOpsR c10s1 [BMOp.fre 12, BMOp.alloc (fun _ => true)]).getD ([], emptyBitmapPage)

theorem C10_allocate_none_is_final_witness : c10run.1.getD 0 (some 99) = none :=
  C10_allocate_none_is_final c10s0 c10s1 (fun _ => true) (by decide) (by rfl)
    [BMOp.fre 12, BMOp.alloc (fun _ => true)] c10run.1 c10run.2 (by rfl)
    (c10run.1.getD 0 (some 99)) (by decide)

/-- Number of zero bits among bits 0..7 of a byte. -/
def byteZeros (b : Nat) : Nat := ((Finset.range 8).filter (fun k => b.testBit k = false)).card
def countClear (l : List Nat) : Nat := (l.map byteZeros).sum

theorem land_shift_eq_zero_iff {n k : Nat} : n &&& (1 <<< k) = 0 ↔ n.testBit k = false := by
  rw [Nat.one_shiftLeft, Nat.and_two_pow]
  rcases h : n.testBit k <;> simp [h]

theorem byteZeros_le (b : Nat) : byteZeros b ≤ 8 := by
  calc ((Finset.range 8).filter (fun k => b.testBit k = false)).card
      ≤ (Finset.range 8).card := Finset.card_filter_le _ _
    _ = 8 := Finset.card_range 8

theorem byteZeros_or {b k : Nat} (hk : k < 8) (hb : b.testBit k = false) :
    byteZeros (b ||| (1 <<< k)) + 1 = byteZeros b ∧ 1 ≤ byteZeros b := by
  have hmem : k ∈ (Finset.range 8).filter (fun j => b.testBit j = false) := by
    simp [Finset.mem_filter, Finset.mem_range, hk, hb]
  have hfe : (Finset.range 8).filter (fun j => (b ||| (1 <<< k)).testBit j = false) =
      ((Finset.range 8).filter (fun j => b.testBit j = false)).erase k := by
    ext j
    simp only [Finset.mem_filter, Finset.mem_erase, Finset.mem_range,
      Nat.one_shiftLeft, Nat.testBit_lor, Nat.testBit_two_pow]
    constructor
    · rintro ⟨hj, hor⟩
      simp only [Bool.or_eq_false_iff] at hor
      refine ⟨?_, hj, hor.1⟩
      intro hkj
      rw [hkj] at hor
      simp at hor
    · rintro ⟨hne, hj, hbj⟩
      refine ⟨hj, ?_⟩
      simp only [hbj, Bool.false_or, decide_eq_false_iff_not]
      exact fun h => hne h.symm
  constructor
  · unfold byteZeros
    rw [hfe, Finset.card_erase_of_mem hmem]
    have := Finset.card_pos.mpr ⟨k, hmem⟩
    omega
  · unfold byteZeros
    exact Finset.card_pos.mpr ⟨k, hmem⟩

theorem byteZeros_and_not {b k : Nat} (hk : k < 8) (hb : b.testBit k = true) :
    byteZeros (b &&& (255 ^^^ (1 <<< k))) = byteZeros b + 1 := by
  have hnm : k ∉ (Finset.range 8).filter (fun j => b.testBit j = false) := by
    simp [Finset.mem_filter, hb]
  have h255 : (255 : Nat) = 2 ^ 8 - 1 := by norm_num
  have hfe : (Finset.range 8).filter
        (fun j => (b &&& (255 ^^^ (1 <<< k))).testBit j = false) =
      insert k ((Finset.range 8).filter (fun j => b.testBit j = false)) := by
    ext j
    simp only [Finset.mem_insert, Finset.mem_filter, Finset.mem_range,
      Nat.one_shiftLeft, Nat.testBit_land, Nat.testBit_xor, h255,
      Nat.testBit_two_pow_sub_one, Nat.testBit_two_pow]
    constructor
    · rintro ⟨hj, hand⟩
      simp only [hj, decide_eq_true_eq, Bool.and_eq_false_iff] at hand
      rcases hand with hbj | hxor
      · exact Or.inr ⟨hj, hbj⟩
      · rcases hx : decide (k = j) with _ | _
        · rw [hx] at hxor
          simp [decide_eq_true hj] at hxor
        · exact Or.inl (of_decide_eq_true hx).symm
    · rintro (rfl | ⟨hj, hbj⟩)
      · refine ⟨hk, ?_⟩
        simp [decide_eq_true hk]
      · refine ⟨hj, ?_⟩
        simp [hbj]
  unfold byteZeros
  rw [hfe, Finset.card_insert_of_not_mem hnm]

theorem countClear_set : ∀ {l : List Nat} {i : Nat}, i < l.length → ∀ v : Nat,
    countClear (l.set i v) + byteZeros (l.getD i 0) = countClear l + byteZeros v := by
  intro l
  induction l with
  | nil => intro i hi; simp at hi
  | cons a t ih =>
    intro i hi v
    cases i with
    | zero =>
      simp only [List.set, countClear, List.map_cons, List.sum_cons, List.getD_cons_zero]
      omega
    | succ n =>
      have hn : n < t.length := by simpa using hi
      have := ih hn v
      simp only [List.set, countClear, List.map_cons, List.sum_cons, List.getD_cons_succ]
      unfold countClear at this
      omega

theorem countClear_ge_byte {l : List Nat} {i : Nat} (h : i < l.length) :
    byteZeros (l.getD i 0) ≤ countClear l := by
  have hmem : byteZeros (l.getD i 0) ∈ l.map byteZeros := by
    rw [List.getD_eq_getElem?_getD, List.getElem?_eq_getElem h]
    exact List.mem_map_of_mem _ (List.getElem_mem h)
  exact List.single_le_sum (fun x _ => Nat.zero_le x) _ hmem

theorem and7_lt (i : Nat) : i &&& 7 < 8 := by
  have h7 : (7 : Nat) = 2 ^ 3 - 1 := by norm_num
  rw [h7, Nat.and_pow_two_sub_one_eq_mod]
  omega

theorem bmSet_countClear {l : List Nat} {i : Nat} {ch : Bool} {l2 : List Nat}
    (h : bmSet l i = some (ch, l2)) :
    (ch = true → countClear l2 + 1 = countClear l) ∧ (ch = false → l2 = l) := by
  unfold bmSet at h
  by_cases hb : i >>> 3 < l.length
  · rw [dif_pos hb] at h
    dsimp only at h
    split_ifs at h with hc
    · obtain ⟨rfl, rfl⟩ := Prod.mk.injEq .. ▸ Option.some.inj h
      refine ⟨fun _ => ?_, by simp⟩
      have htb : (l.getD (i >>> 3) 0).testBit (i &&& 7) = false :=
        land_shift_eq_zero_iff.mp hc
      obtain ⟨hor, hge⟩ := byteZeros_or (and7_lt i) htb
      have hcs := countClear_set hb ((l.getD (i >>> 3) 0) ||| (1 <<< (i &&& 7)))
      omega
    · obtain ⟨rfl, rfl⟩ := Prod.mk.injEq .. ▸ Option.some.inj h
      exact ⟨by simp, fun _ => rfl⟩
  · rw [dif_neg hb] at h
    exact absurd h (by simp)

theorem bmClear_countClear {l : List Nat} {i : Nat} {ch : Bool} {l2 : List Nat}
    (h : bmClear l i = some (ch, l2)) :
    (ch = true → countClear l2 = countClear l + 1) ∧ (ch = false → l2 = l) := by
  unfold bmClear at h
  by_cases hb : i >>> 3 < l.length
  · rw [dif_pos hb] at h
    dsimp only at h
    split_ifs at h with hc
    · obtain ⟨rfl, rfl⟩ := Prod.mk.injEq .. ▸ Option.some.inj h
      refine ⟨fun _ => ?_, by simp⟩
      have htb : (l.getD (i >>> 3) 0).testBit (i &&& 7) = true := by
        rw [Nat.one_shiftLeft, Nat.and_two_pow] at hc
        rcases hx : (l.getD (i >>> 3) 0).testBit (i &&& 7) with _ | _
        · rw [hx] at hc
          simp at hc
          exact absurd hc (by positivity)
        · rfl
      have hz := byteZeros_and_not (and7_lt i) htb
      have hcs := countClear_set hb
        ((l.getD (i >>> 3) 0) &&& (255 ^^^ (1 <<< (i &&& 7))))
      omega
    · obtain ⟨rfl, rfl⟩ := Prod.mk.injEq .. ▸ Option.some.inj h
      exact ⟨by simp, fun _ => rfl⟩
  · rw [dif_neg hb] at h
    exact absurd h (by simp)

theorem mark_used_count {b : BitmapPage} {pid : Nat} {f : Nat → Bool} {ch : Bool}
    {b2 : BitmapPage} (hinv : b.free_page_count = countClear b.payload)
    (h : b.mark_used pid f = some (ch, b2)) :
    b2.free_page_count = countClear b2.payload := by
  unfold BitmapPage.mark_used at h
  dsimp only at h
  rcases hset : bmSet b.payload ((pid - b.first_managed_page_id) % 65536) with _ | ⟨ch0, pl⟩
  · rw [hset] at h
    exact absurd h (by simp)
  · rw [hset] at h
    dsimp only at h
    obtain ⟨hcc, hid⟩ := bmSet_countClear hset
    rcases ch0 with _ | _
    · simp only [Bool.false_eq_true, if_false] at h
      obtain ⟨-, rfl⟩ := Prod.mk.injEq .. ▸ Option.some.inj h
      exact hinv
    · simp only [if_true] at h
      have hc1 := hcc rfl
      obtain ⟨-, rfl⟩ := Prod.mk.injEq .. ▸ Option.some.inj h
      split_ifs <;> (dsimp only; omega)

theorem mark_free_count {b : BitmapPage} {pid : Nat} {b2 : BitmapPage}
    (hinv : b.free_page_count = countClear b.payload)
    (h : b.mark_free pid = some b2) :
    b2.free_page_count = countClear b2.payload := by
  unfold BitmapPage.mark_free at h
  dsimp only at h
  rcases hclr : bmClear b.payload ((pid - b.first_managed_page_id) % 65536) with _ | ⟨ch0, pl⟩
  · rw [hclr] at h
    exact absurd h (by simp)
  · rw [hclr] at h
    dsimp only at h
    obtain ⟨hcc, hid⟩ := bmClear_countClear hclr
    rcases ch0 with _ | _
    · simp only [Bool.false_eq_true, if_false] at h
      obtain rfl := Option.some.inj h
      exact hinv
    · simp only [if_true] at h
      have hc1 := hcc rfl
      split_ifs at h <;> (obtain rfl := Option.some.inj h; dsimp only; omega)

theorem allocate_count {b : BitmapPage} {f : Nat → Bool} {r : Option Nat}
    {b2 : BitmapPage} (hinv : b.free_page_count = countClear b.payload)
    (h : b.allocate f = some (r, b2)) :
    b2.free_page_count = countClear b2.payload := by
  unfold BitmapPage.allocate at h
  dsimp only at h
  split at h
  · split at h
    · exact absurd h (by simp)
    · rename_i idx hf1 ch b3 hmu
      obtain ⟨-, rfl⟩ := Prod.mk.injEq .. ▸ Option.some.inj h
      refine mark_used_count ?_ hmu
      exact hinv
  · obtain ⟨-, rfl⟩ := Prod.mk.injEq .. ▸ Option.some.inj h
    exact hinv

theorem free_count {b : BitmapPage} {pid : Nat} {r : Bool} {b2 : BitmapPage}
    (hinv : b.free_page_count = countClear b.payload)
    (h : b.free pid = some (r, b2)) :
    b2.free_page_count = countClear b2.payload := by
  unfold BitmapPage.free at h
  dsimp only at h
  split_ifs at h with hin
  · rcases hmf : b.mark_free pid with _ | b3
    · rw [hmf] at h
      exact absurd h (by simp)
    · rw [hmf] at h
      obtain ⟨-, rfl⟩ := Prod.mk.injEq .. ▸ Option.some.inj h
      exact mark_free_count hinv hmf
  · obtain ⟨-, rfl⟩ := Prod.mk.injEq .. ▸ Option.some.inj h
    exact hinv

theorem runOpsR_count :
    ∀ (ops : List BMOp) (b : BitmapPage), b.free_page_count = countClear b.payload →
      ∀ (rs : List (Option Nat)) (b2 : BitmapPage),
        runOpsR b ops = some (rs, b2) → b2.free_page_count = countClear b2.payload := by
  intro ops
  induction ops with
  | nil =>
    intro b hinv rs b2 h
    simp only [runOpsR] at h
    obtain ⟨-, rfl⟩ := Prod.mk.injEq .. ▸ Option.some.inj h
    exact hinv
  | cons op rest ih =>
    intro b hinv rs b2 h
    cases op with
    | alloc f2 =>
      simp only [runOpsR] at h
      rcases hal : b.allocate f2 with _ | ⟨r0, b3⟩
      · rw [hal] at h
        exact absurd h (by simp)
      · rw [hal] at h
        dsimp only at h
        rcases hrun : runOpsR b3 rest with _ | ⟨rs2, b4⟩
        · rw [hrun] at h
          exact absurd h (by simp)
        · rw [hrun] at h
          obtain ⟨-, rfl⟩ := Prod.mk.injEq .. ▸ Option.some.inj h
          exact ih b3 (allocate_count hinv hal) rs2 b4 hrun
    | fre p =>
      simp only [runOpsR] at h
      rcases hfr : b.free p with _ | ⟨bb, b3⟩
      · rw [hfr] at h
        exact absurd h (by simp)
      · rw [hfr] at h
        exact ih b3 (free_count hinv hfr) rs b2 h

theorem countClear_newBitmap : countClear ((List.replicate 4080 0).set 0 1) = 32639 := by
  have hlen : (0 : Nat) < (List.replicate 4080 (0 : Nat)).length := by
    rw [List.length_replicate]
    norm_num
  have hcs := countClear_set hlen 1
  have hg : (List.replicate 4080 (0 : Nat)).getD 0 0 = 0 := getD_replicate (by norm_num)
  have hrep : countClear (List.replicate 4080 (0 : Nat)) = 4080 * byteZeros 0 := by
    unfold countClear
    rw [List.map_replicate, List.sum_replicate, smul_eq_mul]
  have h0 : byteZeros 0 = 8 := by decide
  have h1 : byteZeros 1 = 7 := by decide
  rw [hg, h0, h1, hrep, h0] at hcs
  omega

/-- C7: starting from `new(f)` and running any sequence of
`allocate`/`free` calls, `free_page_count` always equals the number of
zero bits in the payload (`mark_used` decrements exactly on a 0→1 bit
transition, `mark_free` increments exactly on a 1→0 transition). -/
theorem C7_free_count_invariant :
    ∀ (f : Nat) (b0 : BitmapPage), BitmapPage.new f = some b0 →
    ∀ (ops : List BMOp) (rs : List (Option Nat)) (b : BitmapPage),
      runOpsR b0 ops = some (rs, b) → b.free_page_count = countClear b.payload := by
  intro f b0 hb0 ops rs b hrun
  rw [new_eq] at hb0
  obtain rfl := Option.some.inj hb0
  refine runOpsR_count ops (newBitmap f) ?_ rs b hrun
  show BITMAP_PAGE_COUNT - 1 = countClear ((List.replicate 4080 0).set 0 1)
  rw [countClear_newBitmap]
  norm_num [BITMAP_PAGE_COUNT, PAGE_SIZE, BITMAP_HEADER_SIZE]

theorem C7_free_count_invariant_witness :
    (newBitmap 2).free_page_count = countClear (newBitmap 2).payload :=
  C7_free_count_invariant 2 (newBitmap 2) (new_eq 2) [] [] (newBitmap 2) (by rfl)

/-- The `InvalidInput` messages a `PageStore` can produce
(`src/io/store.rs`), as distinct constructors. -/
inductive StoreMsg where
  | beyondMaxSize
  | pageNotYetExists
  | wrongBufferSize
  | overrunPage
deriving Repr, DecidableEq

/-- `PageStore` (`src/io/store.rs`), reduced to the sizes its bounds
checks and grow policy read and write; the mapped file bytes themselves
are I/O and are not modelled. -/
structure PageStore where
  max_size : Nat
  current_size : Nat
deriving Repr, DecidableEq

/-- `PageStore::read_page(id)`: the `[id*P, (id+1)*P)` view, or
`InvalidInput` when it reaches beyond the current file size, with a
distinct message when it is beyond even `max_size`. -/
def PageStore.read_page (s : PageStore) (id : Nat) : Except StoreMsg (Nat × Nat) :=
  let offset := id * PAGE_SIZE
  let e := offset + PAGE_SIZE
  if e > s.current_size then
    Except.error (if e > s.max_size then StoreMsg.beyondMaxSize else StoreMsg.pageNotYetExists)
  else Except.ok (offset, e)

/-- `PageStore::ensure_page_exists_at(pos)`: page-align `pos` upward
(`(pos & !(P-1)) + P` on a 64-bit `usize`) and grow the file to that size
when allowed. -/
def PageStore.ensure_page_exists_at (s : PageStore) (pos : Nat) : Except StoreMsg PageStore :=
  let new_size := (pos &&& (18446744073709551616 - PAGE_SIZE)) + PAGE_SIZE
  if new_size > s.max_size then Except.error StoreMsg.beyondMaxSize
  else if new_size > s.current_size then Except.ok { s with current_size := new_size }
  else Except.ok s

/-- `PageStore::write_buf_at(buf, pos)`; the seek and the write itself are
I/O on the file handle and leave the modelled state unchanged. -/
def PageStore.write_buf_at (s : PageStore) (_buf : List Nat) (pos : Nat) :
    Except StoreMsg PageStore :=
  s.ensure_page_exists_at pos

/-- `PageStore::write_page(id, buf)`. -/
def PageStore.write_page (s : PageStore) (id : Nat) (buf : List Nat) :
    Except StoreMsg PageStore :=
  if buf.length ≠ PAGE_SIZE then Except.error StoreMsg.wrongBufferSize
  else s.write_buf_at buf (id * PAGE_SIZE)

/-- `PageStore::write_page_range(id, offset, buf)`. -/
def PageStore.write_page_range (s : PageStore) (id offset : Nat) (buf : List Nat) :
    Except StoreMsg PageStore :=
  if offset + buf.length > PAGE_SIZE then Except.error StoreMsg.overrunPage
  else s.write_buf_at buf (id * PAGE_SIZE + offset)

/-- C8: `write_page` rejects buffers of length ≠ 4096; a write whose
page-aligned end `(pos & !(P-1)) + P` exceeds `max_size` fails with
`InvalidInput` and does not extend the file; an end within `max_size` but
beyond `current_size` extends the file exactly to the aligned end; and
`read_page(id)` fails when `(id+1)*P` exceeds `current_size`, with a
distinct message when it also exceeds `max_size`. -/
theorem C8_store_bounds :
    (∀ (s : PageStore) (id : Nat) (buf : List Nat), buf.length ≠ PAGE_SIZE →
      s.write_page id buf = Except.error StoreMsg.wrongBufferSize) ∧
    (∀ (s : PageStore) (buf : List Nat) (pos : Nat),
      (pos &&& (18446744073709551616 - PAGE_SIZE)) + PAGE_SIZE > s.max_size →
      s.write_buf_at buf pos = Except.error StoreMsg.beyondMaxSize) ∧
    (∀ (s : PageStore) (buf : List Nat) (pos : Nat),
      (pos &&& (18446744073709551616 - PAGE_SIZE)) + PAGE_SIZE ≤ s.max_size →
      (pos &&& (18446744073709551616 - PAGE_SIZE)) + PAGE_SIZE > s.current_size →
      s.write_buf_at buf pos = Except.ok
        { s with current_size := (pos &&& (18446744073709551616 - PAGE_SIZE)) + PAGE_SIZE }) ∧
    (∀ (s : PageStore) (id : Nat), (id + 1) * PAGE_SIZE > s.current_size →
      ((id + 1) * PAGE_SIZE > s.max_size →
        s.read_page id = Except.error StoreMsg.beyondMaxSize) ∧
      ((id + 1) * PAGE_SIZE ≤ s.max_size →
        s.read_page id = Except.error StoreMsg.pageNotYetExists) ∧
      StoreMsg.beyondMaxSize ≠ StoreMsg.pageNotYetExists) := by
  refine ⟨?_, ?_, ?_, ?_⟩
  · intro s id buf hlen
    unfold PageStore.write_page
    rw [if_pos hlen]
  · intro s buf pos hmax
    unfold PageStore.write_buf_at PageStore.ensure_page_exists_at
    dsimp only
    rw [if_pos hmax]
  · intro s buf pos hmax hcur
    unfold PageStore.write_buf_at PageStore.ensure_page_exists_at
    dsimp only
    rw [if_neg (by omega), if_pos hcur]
  · intro s id hcur
    have he : id * PAGE_SIZE + PAGE_SIZE = (id + 1) * PAGE_SIZE := by ring
    refine ⟨?_, ?_, by simp⟩
    · intro hmax
      unfold PageStore.read_page
      dsimp only
      rw [he, if_pos hcur, if_pos hmax]
    · intro hmax
      unfold PageStore.read_page
      dsimp only
      rw [he, if_pos hcur, if_neg (by omega)]

/-- A concrete store: 40-page capacity, one page currently in the file. -/
def c8Store : PageStore := { max_size := 163840, current_size := 4096 }

theorem C8_store_bounds_witness :
    c8Store.write_page 0 [] = Except.error StoreMsg.wrongBufferSize ∧
    c8Store.write_buf_at [] 163840 = Except.error StoreMsg.beyondMaxSize ∧
    c8Store.write_buf_at [] 4096 = Except.ok { c8Store with current_size := 8192 } ∧
    c8Store.read_page 40 = Except.error StoreMsg.beyondMaxSize ∧
    c8Store.read_page 1 = Except.error StoreMsg.pageNotYetExists := by
  refine ⟨?_, ?_, ?_, ?_, ?_⟩
  · exact C8_store_bounds.1 c8Store 0 [] (by decide)
  · exact C8_store_bounds.2.1 c8Store [] 163840 (by decide)
  · have h := C8_store_bounds.2.2.1 c8Store [] 4096 (by decide) (by decide)
    rw [h]
    rfl
  · exact (C8_store_bounds.2.2.2 c8Store 40 (by decide)).1 (by decide)
  · exact (C8_store_bounds.2.2.2 c8Store 1 (by decide)).2.1 (by decide)

/-- In-memory `IndexPage` (`src/io/index.rs`).  `dirty_bitmaps` models the
`HashMap<u16, Pin<Box<BitmapPage>>>` as an association list with
replace-on-insert; `buffer` is the full 4096-byte page. -/
structure IndexPage where
  page_id : Nat
  first_managed_page_id : Nat
  current_bitmap_count : Nat
  current_bitmap_idx : Nat
  first_free_bitmap_idx : Nat
  dirty_bitmaps : List (Nat × BitmapPage)
  buffer : List Nat

/-- `HashMap::insert`: replace any entry with the same key. -/
def insertDirty (m : List (Nat × BitmapPage)) (k : Nat) (v : BitmapPage) :
    List (Nat × BitmapPage) :=
  (k, v) :: m.filter (fun kv => kv.1 != k)

/-- The forward scan of `update_bitmap_data` re-deriving
`first_free_bitmap_idx` (`for idx in bitmap_idx+1..current_bitmap_count`),
structurally recursive on the number of slots left; falls through to
`current_bitmap_count`. -/
def ffbiScanGo (buffer : List Nat) (count : Nat) : Nat → Nat → Option Nat
  | _idx, 0 => some count
  | idx, rem + 1 =>
    if idx < count then
      match getU32 buffer (INDEX_HEADER_SIZE + idx * 8 + 4) with
      | none => none
      | some pc => if pc > 0 then some idx else ffbiScanGo buffer count (idx + 1) rem
    else some count

def ffbiScan (buffer : List Nat) (count idx : Nat) : Option Nat :=
  ffbiScanGo buffer count idx (count - idx)

/-- The slot index computation shared by `update`, `free_dirty` and
`free_unloaded`: a wrapping `u32` subtraction, division by
`BITMAP_PAGE_COUNT`, and the `as u16` cast. -/
def slotOf (stFirst bmFirst : Nat) : Nat :=
  (((bmFirst + 4294967296 - stFirst) % 4294967296) / BITMAP_PAGE_COUNT) % 65536

/-- `IndexPage::update_bitmap_data(bitmap_idx, page_id, free_page_count)`:
write the 8-byte slot and maintain `first_free_bitmap_idx` in both
directions. -/
def update_bitmap_data (st : IndexPage) (bitmap_idx page_id free_page_count : Nat) :
    Option IndexPage :=
  let index := INDEX_HEADER_SIZE + bitmap_idx * 8
  match putU32 st.buffer index page_id with
  | none => none
  | some buf1 =>
    match putU32 buf1 (index + 4) free_page_count with
    | none => none
    | some buf2 =>
      let st1 := { st with buffer := buf2 }
      if bitmap_idx < st1.first_free_bitmap_idx ∧ free_page_count > 0 then
        some { st1 with first_free_bitmap_idx := bitmap_idx }
      else if bitmap_idx = st1.first_free_bitmap_idx ∧ free_page_count = 0 then
        match ffbiScan buf2 st1.current_bitmap_count (bitmap_idx + 1) with
        | none => none
        | some v => some { st1 with first_free_bitmap_idx := v }
      else some st1

/-- `IndexPage::update(bitmap)`: slot index from the bitmap's
`first_managed_page_id` (`u32` wrapping subtraction, then `/ B`, then the
`as u16` cast). -/
def IndexPage.update (st : IndexPage) (bm : BitmapPage) : Option IndexPage :=
  update_bitmap_data st (slotOf st.first_managed_page_id bm.first_managed_page_id)
    bm.page_id bm.free_page_count

/-- `IndexPage::grow_next_bitmap()`. -/
def IndexPage.grow_next_bitmap (st : IndexPage) : Option (Bool × IndexPage) :=
  if st.current_bitmap_count < INDEX_BITMAP_COUNT then
    match BitmapPage.new (st.first_managed_page_id +
        st.current_bitmap_count * BITMAP_PAGE_COUNT) with
    | none => none
    | some bm =>
      match st.update bm with
      | none => none
      | some st1 =>
        some (true, { st1 with
          dirty_bitmaps := insertDirty st1.dirty_bitmaps st.current_bitmap_count bm,
          current_bitmap_idx := st.current_bitmap_count,
          current_bitmap_count := st.current_bitmap_count + 1 })
  else some (false, st)

/-- `IndexPage::free_dirty(page_id)`: wrapping `u32` computation of the
slot, then the dirty-map lookup (`get_mut(&idx)?`). -/
def IndexPage.free_dirty (st : IndexPage) (page_id : Nat) :
    Option (Option Bool × IndexPage) :=
  let idx := slotOf st.first_managed_page_id page_id
  match st.dirty_bitmaps.lookup idx with
  | none => some (none, st)
  | some bm =>
    match bm.free page_id with
    | none => none
    | some (result, bm2) =>
      let st1 := { st with dirty_bitmaps := insertDirty st.dirty_bitmaps idx bm2 }
      match update_bitmap_data st1 idx bm2.page_id bm2.free_page_count with
      | none => none
      | some st2 => some (some result, st2)

/-- `IndexPage::grow(bitmap)`.  Note the source builds the second bitmap
at the constant `BITMAP_PAGE_COUNT`, not at
`bitmap.first_managed_page_id() + BITMAP_PAGE_COUNT`, and inserts only
that second bitmap into the dirty map. -/
def IndexPage.grow (bitmap : BitmapPage) : Option IndexPage :=
  match BitmapPage.new BITMAP_PAGE_COUNT with
  | none => none
  | some second =>
    match second.allocate (fun _ => true) with
    | none => none
    | some (none, _) => none
    | some (some page_id, second2) =>
      let st : IndexPage :=
        { page_id := page_id
          first_managed_page_id := bitmap.first_managed_page_id
          current_bitmap_count := 2
          current_bitmap_idx := 1
          first_free_bitmap_idx := if bitmap.free_page_count > 0 then 0 else 1
          dirty_bitmaps := []
          buffer := List.replicate PAGE_SIZE 0 }
      match st.update bitmap with
      | none => none
      | some st1 =>
        match st1.update second2 with
        | none => none
        | some st2 =>
          some { st2 with dirty_bitmaps := insertDirty st2.dirty_bitmaps 1 second2 }

/-- One pending call of the mutually recursive `IndexPage` operations
(`allocate` / `activate_next_bitmap` loop body / `free` /
`free_unloaded`). -/
inductive IxCall where
  | alloc (st : IndexPage) (f : Nat → Bool)
  | activate (st : IndexPage) (bitmap_idx idx : Nat) (f : Nat → Bool)
  | fre (st : IndexPage) (page_id : Nat) (f : Nat → Bool)
  | freUnloaded (st : IndexPage) (page_id : Nat) (f : Nat → Bool)

inductive IxRes where
  | alloc (r : Option Nat) (st : IndexPage)
  | activate (r : Bool) (st : IndexPage)
  | fre (r : Option Bool) (st : IndexPage)

/-- The mutually recursive bodies of `IndexPage::allocate`,
`activate_next_bitmap`, `free` and `free_unloaded`, as one dispatcher
structurally recursive on a fuel bound (the Rust recursion has no static
bound); outer `none` = fuel exhausted or panic.  Each arm is a direct
transcription of the corresponding function in `src/io/index.rs`; note
`activate` reads the slot at `bitmap_idx * 8` — the function argument —
on every loop iteration, not at the loop variable `idx`. -/
def ixRun (store : Nat → Option MemoryPage) : Nat → IxCall → Option IxRes
  | 0, _ => none
  | fuel + 1, IxCall.alloc st f =>
    match st.dirty_bitmaps.lookup st.current_bitmap_idx with
    | none => none
    | some bm =>
      match bm.allocate f with
      | none => none
      | some (result, bm2) =>
        let st1 := { st with
          dirty_bitmaps := insertDirty st.dirty_bitmaps st.current_bitmap_idx bm2 }
        match update_bitmap_data st1 st.current_bitmap_idx bm2.page_id
            bm2.free_page_count with
        | none => none
        | some st2 =>
          match result with
          | some pid => some (IxRes.alloc (some pid) st2)
          | none =>
            match ixRun store fuel (IxCall.activate st2 (st2.current_bitmap_idx + 1)
                (st2.current_bitmap_idx + 1) f) with
            | none => none
            | some (IxRes.activate false st3) => some (IxRes.alloc none st3)
            | some (IxRes.activate true st3) => ixRun store fuel (IxCall.alloc st3 f)
            | some _ => none
  | fuel + 1, IxCall.activate st bitmap_idx idx f =>
    if idx < st.current_bitmap_count then
      match getU32 (st.buffer.drop INDEX_HEADER_SIZE) (bitmap_idx * 8) with
      | none => none
      | some bitmap_page_id =>
        match store bitmap_page_id with
        | none => none
        | some mem =>
          match BitmapPage.load mem f with
          | none => none
          | some none => ixRun store fuel (IxCall.activate st bitmap_idx (idx + 1) f)
          | some (some bm) =>
            let freed := bm.contains bitmap_page_id
            match st.update bm with
            | none => none
            | some st1 =>
              let st2 := { st1 with
                current_bitmap_idx := idx
                dirty_bitmaps := insertDirty st1.dirty_bitmaps idx bm }
              if freed then some (IxRes.activate true st2)
              else
                match ixRun store fuel (IxCall.fre st2 bitmap_page_id f) with
                | none => none
                | some (IxRes.fre none st3) => some (IxRes.activate false st3)
                | some (IxRes.fre (some _) st3) => some (IxRes.activate true st3)
                | some _ => none
    else
      match st.grow_next_bitmap with
      | none => none
      | some (r, st2) => some (IxRes.activate r st2)
  | fuel + 1, IxCall.fre st page_id f =>
    match st.free_dirty page_id with
    | none => none
    | some (some r, st1) => some (IxRes.fre (some r) st1)
    | some (none, st1) => ixRun store fuel (IxCall.freUnloaded st1 page_id f)
  | fuel + 1, IxCall.freUnloaded st page_id f =>
    match ixRun store fuel (IxCall.alloc st f) with
    | none => none
    | some (IxRes.alloc none st1) => some (IxRes.fre none st1)
    | some (IxRes.alloc (some new_pid) st1) =>
      let bitmap_idx := slotOf st1.first_managed_page_id page_id
      match getU32 (st1.buffer.drop INDEX_HEADER_SIZE) (bitmap_idx * 8) with
      | none => none
      | some old_pid =>
        match store old_pid with
        | none => some (IxRes.fre none st1)
        | some mem =>
          match BitmapPage.load_into mem new_pid with
          | none => none
          | some bm =>
            match bm.free page_id with
            | none => none
            | some (result, bm2) =>
              match st1.update bm2 with
              | none => none
              | some st2 =>
                some (IxRes.fre (some result)
                  { st2 with dirty_bitmaps := insertDirty st2.dirty_bitmaps bitmap_idx bm2 })
    | some _ => none

/-- `IndexPage::allocate(store, f)` (fuelled). -/
def IndexPage.allocate (store : Nat → Option MemoryPage) (fuel : Nat)
    (st : IndexPage) (f : Nat → Bool) : Option (Option Nat × IndexPage) :=
  match ixRun store fuel (IxCall.alloc st f) with
  | some (IxRes.alloc r st2) => some (r, st2)
  | _ => none

/-- `IndexPage::activate_next_bitmap(store, bitmap_idx, f)` (fuelled). -/
def IndexPage.activate_next_bitmap (store : Nat → Option MemoryPage) (fuel : Nat)
    (st : IndexPage) (bitmap_idx : Nat) (f : Nat → Bool) : Option (Bool × IndexPage) :=
  match ixRun store fuel (IxCall.activate st bitmap_idx bitmap_idx f) with
  | some (IxRes.activate r st2) => some (r, st2)
  | _ => none

/-- `IndexPage::free(page_id, store, f)` (fuelled). -/
def IndexPage.free (store : Nat → Option MemoryPage) (fuel : Nat)
    (st : IndexPage) (page_id : Nat) (f : Nat → Bool) :
    Option (Option Bool × IndexPage) :=
  match ixRun store fuel (IxCall.fre st page_id f) with
  | some (IxRes.fre r st2) => some (r, st2)
  | _ => none


/-- The state of `new(g)` after one unfiltered `allocate` (which returns
`g + 1`). -/
def newBitmapAfterAlloc (g : Nat) : BitmapPage :=
  { newBitmap g with
    current_first_free_page_idx := 2
    first_free_page_idx := 2
    free_page_count := BITMAP_PAGE_COUNT - 1 - 1
    payload := ((List.replicate 4080 0).set 0 1).set 0 3 }

theorem allocate_newBitmap (g : Nat) :
    (newBitmap g).allocate (fun _ => true) =
      some (some (g + 1), newBitmapAfterAlloc g) := by
  have hfind1 : findClearFiltered ((List.replicate 4080 0).set 0 1) 1
      (fun _ => true) = some 1 := by
    unfold findClearFiltered
    rw [if_neg (by rw [List.length_set, List.length_replicate]; decide)]
    rfl
  have hset2 : bmSet ((List.replicate 4080 0).set 0 1) 1 =
      some (true, ((List.replicate 4080 0).set 0 1).set 0 3) := by
    unfold bmSet
    rw [dif_pos (by rw [List.length_set, List.length_replicate]; decide)]
    rfl
  have hfind2 : findClearFiltered (((List.replicate 4080 0).set 0 1).set 0 3) 2
      (fun _ => true) = some 2 := by
    unfold findClearFiltered
    rw [if_neg (by rw [List.length_set, List.length_set, List.length_replicate]; decide)]
    rfl
  unfold BitmapPage.allocate
  dsimp only [newBitmap]
  rw [hfind1]
  dsimp only
  unfold BitmapPage.mark_used
  dsimp only
  rw [show g + 1 - g = 1 from by omega]
  rw [show (1 : Nat) % 65536 = 1 from by norm_num]
  rw [hset2]
  dsimp only
  rw [if_pos rfl]
  dsimp only [BitmapPage.page_for]
  rw [show (1 + 1 : Nat) % 65536 = 2 from by norm_num]
  rw [hfind2]
  rw [if_pos rfl]
  dsimp only
  rw [if_pos rfl]
  rw [show (1 + 1 : Nat) % 65536 = 2 from by norm_num]
  rw [hfind2]
  simp only [newBitmapAfterAlloc, newBitmap, Option.getD_some]

theorem update_bitmap_data_plain {st : IndexPage} {k pid cnt : Nat}
    (hb : 16 + k * 8 + 8 ≤ st.buffer.length)
    (h1 : ¬(k < st.first_free_bitmap_idx ∧ cnt > 0))
    (h2 : ¬(k = st.first_free_bitmap_idx ∧ cnt = 0)) :
    ∃ buf2, update_bitmap_data st k pid cnt = some { st with buffer := buf2 } ∧
      buf2.length = st.buffer.length := by
  have h16 : INDEX_HEADER_SIZE = 16 := rfl
  unfold update_bitmap_data putU32
  dsimp only
  rw [h16]
  rw [if_pos (show 16 + k * 8 + 4 ≤ st.buffer.length from by omega)]
  dsimp only
  rw [if_pos (show 16 + k * 8 + 4 + 4 ≤ _ from by
    simp only [List.length_set]; omega)]
  dsimp only
  rw [if_neg h1, if_neg h2]
  exact ⟨_, rfl, by simp only [List.length_set]⟩

theorem update_plain {st : IndexPage} {bm : BitmapPage}
    (hb : 16 + slotOf st.first_managed_page_id bm.first_managed_page_id * 8 + 8 ≤
      st.buffer.length)
    (h1 : ¬(slotOf st.first_managed_page_id bm.first_managed_page_id <
      st.first_free_bitmap_idx ∧ bm.free_page_count > 0))
    (h2 : ¬(slotOf st.first_managed_page_id bm.first_managed_page_id =
      st.first_free_bitmap_idx ∧ bm.free_page_count = 0)) :
    ∃ buf2, st.update bm = some { st with buffer := buf2 } ∧
      buf2.length = st.buffer.length := by
  unfold IndexPage.update
  exact update_bitmap_data_plain hb h1 h2

theorem nb_first (g : Nat) : (newBitmap g).first_managed_page_id = g := rfl
theorem nb_count (g : Nat) : (newBitmap g).free_page_count = BITMAP_PAGE_COUNT - 1 := rfl
theorem nbaa_first (g : Nat) : (newBitmapAfterAlloc g).first_managed_page_id = g := rfl
theorem nbaa_count (g : Nat) :
    (newBitmapAfterAlloc g).free_page_count = BITMAP_PAGE_COUNT - 1 - 1 := rfl

theorem grow_newBitmap2 :
    ∃ buf, IndexPage.grow (newBitmap 2) = some
      { page_id := BITMAP_PAGE_COUNT + 1
        first_managed_page_id := 2
        current_bitmap_count := 2
        current_bitmap_idx := 1
        first_free_bitmap_idx := 0
        dirty_bitmaps := [(1, newBitmapAfterAlloc BITMAP_PAGE_COUNT)]
        buffer := buf } := by
  unfold IndexPage.grow
  rw [new_eq BITMAP_PAGE_COUNT]
  dsimp only
  rw [allocate_newBitmap BITMAP_PAGE_COUNT]
  dsimp only
  rw [nb_first, nb_count]
  rw [if_pos (show (0:Nat) < BITMAP_PAGE_COUNT - 1 from by
    norm_num [BITMAP_PAGE_COUNT, PAGE_SIZE, BITMAP_HEADER_SIZE])]
  obtain ⟨buf1, hup1, hlen1⟩ := @update_plain
    { page_id := BITMAP_PAGE_COUNT + 1, first_managed_page_id := 2,
      current_bitmap_count := 2, current_bitmap_idx := 1,
      first_free_bitmap_idx := 0, dirty_bitmaps := [],
      buffer := List.replicate PAGE_SIZE 0 } (newBitmap 2)
    (by simp only [List.length_replicate]
        norm_num [slotOf, newBitmap, BITMAP_PAGE_COUNT, PAGE_SIZE, BITMAP_HEADER_SIZE])
    (by norm_num [slotOf, newBitmap, BITMAP_PAGE_COUNT, PAGE_SIZE, BITMAP_HEADER_SIZE])
    (by norm_num [slotOf, newBitmap, BITMAP_PAGE_COUNT, PAGE_SIZE, BITMAP_HEADER_SIZE])
  rw [hup1]
  dsimp only
  obtain ⟨buf2, hup2, hlen2⟩ := @update_plain
    { page_id := BITMAP_PAGE_COUNT + 1, first_managed_page_id := 2,
      current_bitmap_count := 2, current_bitmap_idx := 1,
      first_free_bitmap_idx := 0, dirty_bitmaps := [],
      buffer := buf1 } (newBitmapAfterAlloc BITMAP_PAGE_COUNT)
    (by simp only [hlen1, List.length_replicate]
        norm_num [slotOf, newBitmapAfterAlloc, newBitmap, BITMAP_PAGE_COUNT, PAGE_SIZE,
          BITMAP_HEADER_SIZE])
    (by norm_num [slotOf, newBitmapAfterAlloc, newBitmap, BITMAP_PAGE_COUNT, PAGE_SIZE,
          BITMAP_HEADER_SIZE])
    (by norm_num [slotOf, newBitmapAfterAlloc, newBitmap, BITMAP_PAGE_COUNT, PAGE_SIZE,
          BITMAP_HEADER_SIZE])
  rw [hup2]
  exact ⟨buf2, rfl⟩

/-- C3 (code bug): after `IndexPage::grow` on `new(2)` the header fields
are `first_managed_page_id = 2`, `current_bitmap_count = 2`,
`current_bitmap_idx = 1`, `first_free_bitmap_idx = 0` as claimed, but the
dirty map holds exactly ONE entry — slot 1 with the fresh second bitmap;
`grow` writes the first bitmap's slot data into the buffer without
inserting the bitmap itself (`io/index/tests.rs::grow_from_first_bitmap`
asserts two dirty bitmaps, agreeing with the spec against the code). -/
theorem C3_grow_single_dirty_entry :
    (IndexPage.grow (newBitmap 2)).map (fun st =>
      (st.first_managed_page_id, st.current_bitmap_count, st.current_bitmap_idx,
        st.first_free_bitmap_idx, st.dirty_bitmaps.length)) = some (2, 2, 1, 0, 1) := by
  obtain ⟨buf, hg⟩ := grow_newBitmap2
  rw [hg]
  rfl

/-- C5 (code bug): the second bitmap created by `IndexPage::grow` has
`first_managed_page_id = BITMAP_PAGE_COUNT` (the source calls
`BitmapPage::new(BITMAP_PAGE_COUNT as u32)`), not
`first + BITMAP_PAGE_COUNT`: for the first bitmap at 2 the claimed value
`2 + BITMAP_PAGE_COUNT = 32642` differs from the actual `32640`
(`grow_next_bitmap`, invariant 6 of the spec, and
`io/index/tests.rs::grow_from_first_bitmap` all expect the offset form). -/
theorem C5_grow_second_bitmap_at_constant :
    (IndexPage.grow (newBitmap 2)).bind (fun st =>
      (st.dirty_bitmaps.lookup 1).map (fun bm => bm.first_managed_page_id)) =
      some BITMAP_PAGE_COUNT ∧
    BITMAP_PAGE_COUNT ≠ 2 + BITMAP_PAGE_COUNT := by
  obtain ⟨buf, hg⟩ := grow_newBitmap2
  constructor
  · rw [hg]
    rfl
  · norm_num

/-- A persisted bitmap page at id 8 whose payload is fully set: `load`
refuses it. -/
def c2PageA : MemoryPage :=
  { content := [8, 0, 0, 0, 1, 0, 0, 0, 2, 0, 0, 0, 0, 0, 0, 0] ++ [255] }

/-- A persisted bitmap page at id 9 with a free payload: `load` accepts
it. -/
def c2PageB : MemoryPage :=
  { content := [9, 0, 0, 0, 1, 0, 0, 0, 2, 0, 0, 0, 8, 0, 0, 0] ++ [0] }

def c2Store : Nat → Option MemoryPage := fun n =>
  if n = 8 then some c2PageA else if n = 9 then some c2PageB else none

/-- An index at full slot capacity whose slot 0 holds page 8 (unloadable)
and slot 1 holds page 9 (loadable). -/
def c2St : IndexPage :=
  { page_id := 99, first_managed_page_id := 2,
    current_bitmap_count := INDEX_BITMAP_COUNT, current_bitmap_idx := 0,
    first_free_bitmap_idx := 0, dirty_bitmaps := [],
    buffer := List.replicate 16 0 ++ [8, 0, 0, 0, 0, 0, 0, 0, 9, 0, 0, 0, 0, 0, 0, 0] }

set_option maxRecDepth 40000 in
/-- C2 (code bug): `activate_next_bitmap(start_idx = 0, filter)` reads the
bitmap page id from slot `bitmap_idx` — the function argument — on every
loop iteration (`get_u32(content, (bitmap_idx * 8) as usize)`), not from
slot `idx`, the loop variable.  On an index whose slot 0 is unloadable and
whose slot 1 is loadable it therefore re-reads slot 0 on all
`current_bitmap_count` iterations, never fetches slot 1's page, and falls
through (here the slot table is at capacity, so it returns `false` with
the state unchanged) — although `BitmapPage::load` on slot 1's page
succeeds, so the claimed per-`idx` iteration would have returned `true`
at `idx = 1`. -/
theorem C2_activate_reads_fixed_slot :
    IndexPage.activate_next_bitmap c2Store 600 c2St 0 (fun _ => true) =
      some (false, c2St) ∧
    (BitmapPage.load c2PageB (fun _ => true)).map Option.isSome = some true := by
  constructor
  · rfl
  · rfl

/-- A small dirty bitmap with free space, managed range `[32640, 32647]`. -/
def c9Bm : BitmapPage :=
  { page_id := 32640, first_managed_page_id := 32640, last_managed_page_id := 32647,
    current_first_free_page_idx := 0, first_free_page_idx := 0,
    free_page_count := 8, payload := [0] }

def c9St : IndexPage :=
  { page_id := 99, first_managed_page_id := 2, current_bitmap_count := 2,
    current_bitmap_idx := 1, first_free_bitmap_idx := 0,
    dirty_bitmaps := [(1, c9Bm)], buffer := List.replicate 40 0 }

def c9Store : Nat → Option MemoryPage := fun _ => none

/-- C9 counterexample: on an index with `first_managed_page_id = 2`, one
dirty bitmap with free space at slot 1, and a 40-byte buffer model of the
slot table, `free(0)` panics (`none`) instead of completing: the `u32`
subtraction wraps, `free_dirty` misses, and `free_unloaded` reads slot
514 past the table. -/
theorem C9_free_below_range_counterexample :
    IndexPage.free c9Store 3 c9St 0 (fun _ => true) = none := by rfl

theorem c9eq (store : Nat → Option MemoryPage) (m : Nat) (st : IndexPage)
    (pid : Nat) (f : Nat → Bool) :
    ixRun store (m + 2) (IxCall.fre st pid f) =
      match st.free_dirty pid with
      | none => none
      | some (some r, st1) => some (IxRes.fre (some r) st1)
      | some (none, st1) => ixRun store (m + 1) (IxCall.freUnloaded st1 pid f) := rfl

/-- C9 (amended): for an index with `first_managed_page_id = 2` and
`page_id < 2`, `free` does not complete and return a value: the wrapping
`u32` subtraction yields slot `514`; if that slot is not dirty and the
internal `allocate` of `free_unloaded` succeeds, the subsequent slot-table
read at byte offset `514 * 8` is out of bounds — a panic (in a debug
build the subtraction itself already panics). -/
theorem C9_free_below_range_panics
    (store : Nat → Option MemoryPage) (m : Nat) (st st2 : IndexPage)
    (f : Nat → Bool) (pid nid : Nat)
    (hpid : pid < 2) (hfirst : st.first_managed_page_id = 2)
    (hlookup : st.dirty_bitmaps.lookup 514 = none)
    (halloc : ixRun store m (IxCall.alloc st f) = some (IxRes.alloc (some nid) st2))
    (hfirst2 : st2.first_managed_page_id = 2) (hbuf2 : st2.buffer.length ≤ 4128) :
    IndexPage.free store (m + 2) st pid f = none := by
  have hslot : slotOf 2 pid = 514 := by
    interval_cases pid <;>
      norm_num [slotOf, BITMAP_PAGE_COUNT, PAGE_SIZE, BITMAP_HEADER_SIZE]
  have hfd : st.free_dirty pid = some (none, st) := by
    unfold IndexPage.free_dirty
    dsimp only
    rw [hfirst, hslot, hlookup]
  unfold IndexPage.free
  rw [c9eq, hfd]
  dsimp only
  have hnone : ixRun store (m + 1) (IxCall.freUnloaded st pid f) = none := by
    simp only [ixRun]
    rw [halloc]
    dsimp only
    rw [hfirst2, hslot]
    have hget : getU32 (st2.buffer.drop INDEX_HEADER_SIZE) (514 * 8) = none := by
      unfold getU32
      rw [if_neg]
      rw [List.length_drop]
      have h16 : INDEX_HEADER_SIZE = 16 := rfl
      rw [h16]
      omega
    rw [hget]
  rw [hnone]

def ixAllocState (r : Option IxRes) (dflt : IndexPage) : IndexPage :=
  match r with
  | some (IxRes.alloc _ s) => s
  | _ => dflt

def c9St2 : IndexPage :=
  ixAllocState (ixRun c9Store 1 (IxCall.alloc c9St (fun _ => true))) c9St

theorem C9_free_below_range_panics_witness :
    IndexPage.free c9Store 3 c9St 1 (fun _ => true) = none :=
  C9_free_below_range_panics c9Store 1 c9St c9St2 (fun _ => true) 1 32640
    (by decide) rfl (by rfl) (by rfl) (by rfl) (by decide)
